import Mathlib

/-!
Verification of the slab-storage item layer (`src/storage/slab/bb_item.c`).

The C module is embedded shallowly:

* machine integers become `Nat` (counters that the C code can decrement
  below zero, i.e. the metric gauges, become `Int`);
* the item chunk is represented by its header fields plus `buf`, the byte
  region that follows the header, CAS area and key (so `buf` covers exactly
  the bytes `[hdr+cas+klen, slab_item_size id)` of the chunk, and all
  `item_data` pointer arithmetic is re-based to the start of `buf`);
* items are addressed by natural-number references (`ref`) in an
  association-list heap, standing in for chunk pointers;
* the external collaborators that are not part of the source file
  (slab allocator, hash table, `time_now`, `use_cas`, the header macros)
  are modelled from the spec, as marked on each definition.
-/

set_option linter.unusedVariables false

namespace Pelikan

/-- Value classification `vtype` (`V_INT` / `V_STR`). -/
inductive VType
  | V_INT
  | V_STR
  deriving DecidableEq, Repr

/-- `item_rstatus_t` result codes. -/
inductive ItemRstatus
  | ITEM_OK
  | ITEM_ENOTFOUND
  | ITEM_EOVERSIZED
  | ITEM_ENOMEM
  | ITEM_EOTHER
  deriving DecidableEq, Repr

open ItemRstatus

/-! ### Spec-modelled slab-class geometry

The slab allocator itself is out of scope of the source file; the spec
describes the consumed interface: `slab_id(nbytes)` returns the smallest
class whose chunk fits, `SLABCLASS_INVALID_ID` if `nbytes` exceeds the
largest class, and `slab_item_size(id)` is the chunk size of class `id`.
A concrete five-class table is fixed here. -/

/-- Modelled from the spec: smallest valid slab class id. -/
def SLABCLASS_MIN_ID : Nat := 1

/-- Modelled from the spec: largest valid slab class id. -/
def SLABCLASS_MAX_ID : Nat := 5

/-- Modelled from the spec: the invalid slab class id marker. -/
def SLABCLASS_INVALID_ID : Nat := 255

/-- Modelled from the spec: chunk size of slab class `id`
(classes 1..5 have chunk sizes 32, 64, 128, 256, 512 bytes). -/
def slab_item_size (id : Nat) : Nat := 16 * 2 ^ id

/-- Modelled from the spec: `slab_id(nbytes)` — smallest class whose chunk
fits `nbytes`, `SLABCLASS_INVALID_ID` when `nbytes` exceeds the largest
class. -/
def slab_id (n : Nat) : Nat :=
  if n ≤ 32 then 1
  else if n ≤ 64 then 2
  else if n ≤ 128 then 3
  else if n ≤ 256 then 4
  else if n ≤ 512 then 5
  else SLABCLASS_INVALID_ID

/-- Modelled from the spec: size of the item header (`ITEM_HDR_SIZE`,
`offsetof(struct item, end)`); a concrete value is fixed. -/
def ITEM_HDR_SIZE : Nat := 8

/-- Modelled from the spec: `item_ntotal(klen, vlen, cas)` — total chunk
bytes needed: header + optional 8-byte CAS token + key + value. -/
def item_ntotal (klen vlen : Nat) (cas : Bool) : Nat :=
  ITEM_HDR_SIZE + (if cas then 8 else 0) + klen + vlen

/-! ### Byte buffers

`cc_memcpy` into the chunk is modelled by `writeBytes` on the item's data
buffer; reading `len` bytes from an offset is `readBytes`. -/

/-- Write `src` into `dst` starting at offset `off` (model of `cc_memcpy`
with a destination inside the chunk's data region). -/
def writeBytes (dst : List Nat) (off : Nat) (src : List Nat) : List Nat :=
  dst.take off ++ src ++ dst.drop (off + src.length)

/-- Read `len` bytes of `buf` starting at offset `off`. -/
def readBytes (buf : List Nat) (off len : Nat) : List Nat :=
  (buf.drop off).take len

/-! ### Items -/

/-- `struct item`. `buf` is the data region of the chunk: the bytes after
header, CAS area and key, i.e. `slab_item_size id - ITEM_HDR_SIZE -
(has_cas ? 8 : 0) - klen` bytes. `magic` and `offset` (pointer-arithmetic
slab recovery) are memory-layout artifacts and are not represented. -/
structure Item where
  klen : Nat
  key : List Nat
  vlen : Nat
  exptime : Nat
  id : Nat
  refcount : Nat
  is_linked : Bool
  has_cas : Bool
  in_freeq : Bool
  is_raligned : Bool
  cas : Nat
  vtype : VType
  buf : List Nat
  deriving DecidableEq, Repr

/-- Capacity of an item's data region (length `buf` should have). -/
def dataCap (it : Item) : Nat :=
  slab_item_size it.id - ITEM_HDR_SIZE - (if it.has_cas then 8 else 0) - it.klen

/-- `item_data(it)` from `bb_item.c`, re-based to the start of `buf`:
right-aligned values start `vlen` bytes from the end of the chunk
(`(char *)it + slab_item_size(it->id) - it->vlen`), left-aligned values
start right after the key (`it->end + it->klen + cas`), which is offset 0
of `buf`. -/
def item_data (it : Item) : Nat :=
  if it.is_raligned then dataCap it - it.vlen else 0

/-- The value bytes of an item: `vlen` bytes starting at `item_data`. -/
def item_val (it : Item) : List Nat :=
  readBytes it.buf (item_data it) it.vlen

/-- Modelled from the spec (header macro `item_set_cas`): store the token
iff the item carries a CAS slot. -/
def item_set_cas (it : Item) (c : Nat) : Item :=
  if it.has_cas then { it with cas := c } else it

/-- Modelled from the spec (header macro `item_get_cas`): the stored token,
0 when the item has no CAS slot. -/
def item_get_cas (it : Item) : Nat :=
  if it.has_cas then it.cas else 0

/-- Modelled from the spec: `bstring_atou64` succeeds iff the bytes are a
nonempty all-digit string whose value fits in 64 bits. -/
def bstring_atou64_ok (b : List Nat) : Bool :=
  !b.isEmpty && b.all (fun c => 48 ≤ c && c ≤ 57) &&
    b.foldl (fun acc c => acc * 10 + (c - 48)) 0 < 2 ^ 64

/-- `item_check_type`: classify the value bytes as integer or string. -/
def item_check_type (it : Item) : Item :=
  if bstring_atou64_ok (item_val it) then
    { it with vtype := VType.V_INT }
  else
    { it with vtype := VType.V_STR }

/-- `_item_expired`. -/
def item_expired (it : Item) (now : Nat) : Bool :=
  it.exptime > 0 && it.exptime < now

/-! ### Heap of allocated chunks and hash table

Chunk pointers are modelled as `Nat` references into an association-list
heap. The hash table (`bb_assoc`, out of scope of the source file) is
modelled from the spec as a key → reference association list. -/

abbrev Heap := List (Nat × Item)

/-- Look up a reference in the heap. -/
def heapGet (h : Heap) (r : Nat) : Option Item :=
  match h with
  | [] => none
  | (r', it) :: rest => if r' = r then some it else heapGet rest r

/-- Overwrite the item stored at a reference (first occurrence). -/
def heapSet (h : Heap) (r : Nat) (it : Item) : Heap :=
  match h with
  | [] => []
  | (r', it') :: rest =>
      if r' = r then (r', it) :: rest else (r', it') :: heapSet rest r it

/-- Remove a reference from the heap (chunk returned to the slab). -/
def heapRemove (h : Heap) (r : Nat) : Heap :=
  match h with
  | [] => []
  | (r', it') :: rest =>
      if r' = r then rest else (r', it') :: heapRemove rest r

abbrev Table := List (List Nat × Nat)

/-- Modelled from the spec: `assoc_get` — look the key up in the index. -/
def assoc_get (k : List Nat) (t : Table) : Option Nat :=
  match t with
  | [] => none
  | (k', r) :: rest => if k' = k then some r else assoc_get k rest

/-- Modelled from the spec: `assoc_put` — insert an entry (the item layer
guarantees the key is not present). -/
def assoc_put (k : List Nat) (r : Nat) (t : Table) : Table :=
  (k, r) :: t

/-- Modelled from the spec: `assoc_delete` — remove the entry of a key. -/
def assoc_delete (k : List Nat) (t : Table) : Table :=
  match t with
  | [] => []
  | (k', r) :: rest =>
      if k' = k then rest else (k', r) :: assoc_delete k rest

/-! ### Global state

Module statics (`cas_id`, `table`), the spec-modelled collaborators
(slab free chunks, slab refcounts in aggregate, `time_now`, `use_cas`)
and the item metrics. -/

structure State where
  heap : Heap
  table : Table
  /-- Modelled from the spec: number of free chunks the slab allocator can
  still hand out (`slab_get_item` succeeds iff it is nonzero). -/
  freeCount : Nat
  /-- Fresh-reference counter standing in for chunk addresses. -/
  nextRef : Nat
  cas_id : Nat
  use_cas : Bool
  /-- Modelled from the spec: `time_now()`. -/
  now : Nat
  /-- Modelled from the spec: aggregate of the slab refcounts touched by
  `slab_acquire_refcount` / `slab_release_refcount`. -/
  slabRef : Int
  item_req : Nat
  item_req_ex : Nat
  item_link : Nat
  item_unlink : Nat
  item_remove : Nat
  item_curr : Int
  item_keyval_byte : Int
  item_val_byte : Int
  deriving DecidableEq, Repr

/-- `_item_next_cas`: `++cas_id` when CAS is enabled, else 0. -/
def item_next_cas (s : State) : Nat × State :=
  if s.use_cas then (s.cas_id + 1, { s with cas_id := s.cas_id + 1 })
  else (0, s)

/-- `item_slabid(klen, vlen)`. -/
def item_slabid (useCas : Bool) (klen vlen : Nat) : Nat :=
  slab_id (item_ntotal klen vlen useCas)

/-- `_item_free`: return the chunk to the slab allocator
(`slab_put_item`) and count the removal. -/
def item_free (r : Nat) (s : State) : State :=
  { s with heap := heapRemove s.heap r,
           freeCount := s.freeCount + 1,
           item_remove := s.item_remove + 1 }

/-- `_item_acquire_refcount`: bump the item's and the slab's refcount. -/
def item_acquire_refcount (r : Nat) (s : State) : State :=
  match heapGet s.heap r with
  | none => s
  | some it =>
      { s with heap := heapSet s.heap r { it with refcount := it.refcount + 1 },
               slabRef := s.slabRef + 1 }

/-- `_item_release_refcount`: decrement item and slab refcount when the
refcount is nonzero, then free the chunk iff the refcount is now zero and
the item is unlinked. -/
def item_release_refcount (r : Nat) (s : State) : State :=
  match heapGet s.heap r with
  | none => s
  | some it =>
      let it' := if it.refcount ≠ 0 then { it with refcount := it.refcount - 1 } else it
      let s' := if it.refcount ≠ 0 then
                  { s with heap := heapSet s.heap r it', slabRef := s.slabRef - 1 }
                else s
      if it'.refcount = 0 ∧ it'.is_linked = false then item_free r s' else s'

/-- `item_alloc`: pick the slab class, take a free chunk, initialize the
header (refcount 1 via `_item_acquire_refcount`, CAS token 0, key copied,
left-aligned, `has_cas` from configuration), count `item_req`;
`ITEM_EOVERSIZED` when no class fits, `ITEM_ENOMEM` (counting
`item_req_ex`) when the slab allocator has no chunk. -/
def item_alloc (key : List Nat) (exptime vlen : Nat) (s : State) :
    Option Nat × ItemRstatus × State :=
  let id := slab_id (item_ntotal key.length vlen s.use_cas)
  if id = SLABCLASS_INVALID_ID then
    (none, ITEM_EOVERSIZED, s)
  else if s.freeCount = 0 then
    (none, ITEM_ENOMEM, { s with item_req_ex := s.item_req_ex + 1 })
  else
    let r := s.nextRef
    let it : Item :=
      { klen := key.length
        key := key
        vlen := vlen
        exptime := exptime
        id := id
        refcount := 1
        is_linked := false
        has_cas := s.use_cas
        in_freeq := false
        is_raligned := false
        cas := 0
        vtype := VType.V_STR
        buf := List.replicate
          (slab_item_size id - ITEM_HDR_SIZE - (if s.use_cas then 8 else 0) - key.length) 0 }
    (some r, ITEM_OK,
      { s with heap := (r, it) :: s.heap,
               freeCount := s.freeCount - 1,
               nextRef := r + 1,
               slabRef := s.slabRef + 1,
               item_req := s.item_req + 1 })

/-- `_item_link`: set the linked bit, stamp a fresh CAS token, publish in
the hash index, bump link counters and gauges. -/
def item_link (r : Nat) (s : State) : State :=
  match heapGet s.heap r with
  | none => s
  | some it =>
      let (c, s1) := item_next_cas s
      let it' := item_set_cas { it with is_linked := true } c
      { s1 with heap := heapSet s1.heap r it',
                table := assoc_put it'.key r s1.table,
                item_link := s1.item_link + 1,
                item_curr := s1.item_curr + 1,
                item_keyval_byte := s1.item_keyval_byte + (it'.klen + it'.vlen : Nat),
                item_val_byte := s1.item_val_byte + (it'.vlen : Nat) }

/-- `_item_unlink`: decrement the gauges unconditionally; iff the item is
linked, clear the bit, delete from the index and free immediately when the
refcount is zero. -/
def item_unlink (r : Nat) (s : State) : State :=
  match heapGet s.heap r with
  | none => s
  | some it =>
      let s1 := { s with item_unlink := s.item_unlink + 1,
                         item_curr := s.item_curr - 1,
                         item_keyval_byte := s.item_keyval_byte - (it.klen + it.vlen : Nat),
                         item_val_byte := s.item_val_byte - (it.vlen : Nat) }
      if it.is_linked then
        let s2 := { s1 with heap := heapSet s1.heap r { it with is_linked := false },
                            table := assoc_delete it.key s1.table }
        if it.refcount = 0 then item_free r s2 else s2
      else s1

/-- `_item_relink`: `unlink(old); link(new)`. -/
def item_relink (rOld rNew : Nat) (s : State) : State :=
  item_link rNew (item_unlink rOld s)

/-- `item_get`: hash lookup, lazy expiration (unlink expired items and
report a miss), acquire a refcount on hits. -/
def item_get (k : List Nat) (s : State) : Option Nat × State :=
  match assoc_get k s.table with
  | none => (none, s)
  | some r =>
      match heapGet s.heap r with
      | none => (none, s)
      | some it =>
          if it.exptime ≠ 0 ∧ it.exptime ≤ s.now then
            (none, item_unlink r s)
          else
            (some r, item_acquire_refcount r s)

/-- Run `f` on the item stored at `r` (mutation through the pointer). -/
def heapModify (r : Nat) (f : Item → Item) (s : State) : State :=
  match heapGet s.heap r with
  | none => s
  | some it => { s with heap := heapSet s.heap r (f it) }

/-- `item_set`: allocate, copy the value, classify, then link (key absent)
or relink over the old item (key present); release the held refcounts. -/
def item_set (k v : List Nat) (exptime : Nat) (s : State) : ItemRstatus × State :=
  match item_alloc k exptime v.length s with
  | (none, st, s1) => (st, s1)
  | (some r, _, s1) =>
      let s2 := heapModify r
        (fun it => item_check_type { it with buf := writeBytes it.buf (item_data it) v }) s1
      match item_get k s2 with
      | (none, s3) =>
          let s4 := item_link r s3
          (ITEM_OK, item_release_refcount r s4)
      | (some rOld, s3) =>
          let s4 := item_relink rOld r s3
          let s5 := item_release_refcount rOld s4
          (ITEM_OK, item_release_refcount r s5)

/-- `item_cas`: get the old item; `ITEM_ENOTFOUND` on a miss,
`ITEM_EOTHER` on token mismatch; otherwise allocate a new item, store the
supplied token, copy the value, classify and relink. On allocation failure
the function returns directly, skipping the `cas_done` refcount releases. -/
def item_cas (k v : List Nat) (exptime cas : Nat) (s : State) : ItemRstatus × State :=
  match item_get k s with
  | (none, s1) => (ITEM_ENOTFOUND, s1)
  | (some rOld, s1) =>
      match heapGet s1.heap rOld with
      | none => (ITEM_ENOTFOUND, s1)
      | some oit =>
          if cas ≠ item_get_cas oit then
            (ITEM_EOTHER, item_release_refcount rOld s1)
          else
            match item_alloc k exptime v.length s1 with
            | (none, st, s2) => (st, s2)
            | (some r, _, s2) =>
                let s3 := heapModify r
                  (fun it =>
                    let it1 := item_set_cas it cas
                    item_check_type
                      { it1 with buf := writeBytes it1.buf (item_data it1) v }) s2
                let s4 := item_relink rOld r s3
                let s5 := item_release_refcount rOld s4
                (ITEM_OK, item_release_refcount r s5)

/-- `item_annex`: append/prepend. After the oversize check, append copies
in place when the class is unchanged and the item is left-aligned
(prepend: right-aligned), stamping a fresh CAS token; otherwise a new item
is allocated (right-aligned for prepend), both payloads copied, and the
new item relinked over the old. All taken refcounts are released on exit;
an allocation failure goes through `annex_done` and still releases the old
item's refcount. -/
def item_annex (k v : List Nat) (append : Bool) (s : State) : ItemRstatus × State :=
  match item_get k s with
  | (none, s1) => (ITEM_ENOTFOUND, s1)
  | (some rOld, s1) =>
      match heapGet s1.heap rOld with
      | none => (ITEM_ENOTFOUND, s1)
      | some oit =>
          let total := oit.vlen + v.length
          let id := item_slabid s1.use_cas k.length total
          if id = SLABCLASS_INVALID_ID then
            (ITEM_EOVERSIZED, item_release_refcount rOld s1)
          else if append then
            if id = oit.id ∧ oit.is_raligned = false then
              let (c, s2) := item_next_cas s1
              let oit1 := { oit with buf := writeBytes oit.buf (item_data oit + oit.vlen) v }
              let oit2 := { oit1 with vlen := total }
              let oit3 := item_check_type (item_set_cas oit2 c)
              let s3 := { s2 with heap := heapSet s2.heap rOld oit3 }
              (ITEM_OK, item_release_refcount rOld s3)
            else
              match item_alloc k oit.exptime total s1 with
              | (none, st, s2) => (st, item_release_refcount rOld s2)
              | (some r, _, s2) =>
                  let s3 := heapModify r (fun nit =>
                    let nit1 := { nit with
                      buf := writeBytes nit.buf (item_data nit) (item_val oit) }
                    let nit2 := { nit1 with
                      buf := writeBytes nit1.buf (item_data nit1 + oit.vlen) v }
                    item_check_type nit2) s2
                  let s4 := item_relink rOld r s3
                  (ITEM_OK, item_release_refcount r (item_release_refcount rOld s4))
          else
            if id = oit.id ∧ oit.is_raligned = true then
              let oit1 := { oit with buf := writeBytes oit.buf (item_data oit - v.length) v }
              let oit2 := { oit1 with vlen := total }
              let oit3 := item_check_type oit2
              let (c, s2) := item_next_cas s1
              let oit4 := item_set_cas oit3 c
              let s3 := { s2 with heap := heapSet s2.heap rOld oit4 }
              (ITEM_OK, item_release_refcount rOld s3)
            else
              match item_alloc k oit.exptime total s1 with
              | (none, st, s2) => (st, item_release_refcount rOld s2)
              | (some r, _, s2) =>
                  let s3 := heapModify r (fun nit =>
                    let nit1 := { nit with is_raligned := true }
                    let nit2 := { nit1 with
                      buf := writeBytes nit1.buf (item_data nit1 + v.length) (item_val oit) }
                    let nit3 := { nit2 with
                      buf := writeBytes nit2.buf (item_data nit2) v }
                    item_check_type nit3) s2
                  let s4 := item_relink rOld r s3
                  (ITEM_OK, item_release_refcount r (item_release_refcount rOld s4))

/-- `item_update`: `ITEM_EOVERSIZED` when the new value no longer fits the
item's slab class; otherwise set `vlen`, overwrite the value in place and
reclassify (no CAS change, no relink). -/
def item_update (r : Nat) (v : List Nat) (s : State) : ItemRstatus × State :=
  match heapGet s.heap r with
  | none => (ITEM_OK, s)
  | some it =>
      if item_slabid s.use_cas it.klen v.length ≠ it.id then
        (ITEM_EOVERSIZED, s)
      else
        let it1 := { it with vlen := v.length }
        let it2 := { it1 with buf := writeBytes it1.buf (item_data it1) v }
        (ITEM_OK, { s with heap := heapSet s.heap r (item_check_type it2) })

/-- `item_delete`: get; `ITEM_ENOTFOUND` on a miss, else unlink and
release the refcount taken by the get. -/
def item_delete (k : List Nat) (s : State) : ItemRstatus × State :=
  match item_get k s with
  | (some r, s1) => (ITEM_OK, item_release_refcount r (item_unlink r s1))
  | (none, s1) => (ITEM_ENOTFOUND, s1)

/-! ### Basic lemmas about buffers, the heap and the hash table -/

theorem length_writeBytes (b src : List Nat) (off : Nat)
    (h : off + src.length ≤ b.length) :
    (writeBytes b off src).length = b.length := by
  unfold writeBytes
  rw [List.length_append, List.length_append, List.length_take, List.length_drop]
  omega

theorem take_len_writeBytes (b src : List Nat) (off : Nat) (h : off ≤ b.length) :
    ((b.take off).length = off) := by
  rw [List.length_take]
  omega

theorem drop_writeBytes (b src : List Nat) (off : Nat) (h : off ≤ b.length) :
    (writeBytes b off src).drop off = src ++ b.drop (off + src.length) := by
  unfold writeBytes
  rw [List.append_assoc]
  have hlen := take_len_writeBytes b src off h
  calc (b.take off ++ (src ++ b.drop (off + src.length))).drop off
      = (b.take off ++ (src ++ b.drop (off + src.length))).drop (b.take off).length := by
        rw [hlen]
    _ = src ++ b.drop (off + src.length) := List.drop_left _ _

theorem take_writeBytes (b src : List Nat) (off : Nat) (h : off ≤ b.length) :
    (writeBytes b off src).take off = b.take off := by
  unfold writeBytes
  rw [List.append_assoc]
  have hlen := take_len_writeBytes b src off h
  calc (b.take off ++ (src ++ b.drop (off + src.length))).take off
      = (b.take off ++ (src ++ b.drop (off + src.length))).take (b.take off).length := by
        rw [hlen]
    _ = b.take off := List.take_left _ _

theorem readBytes_writeBytes (b src : List Nat) (off : Nat)
    (h : off + src.length ≤ b.length) :
    readBytes (writeBytes b off src) off src.length = src := by
  unfold readBytes
  rw [drop_writeBytes b src off (by omega), List.take_append_eq_append_take]
  simp

/-- Growing the read region rightwards over a fresh write: reading
`src.length + n` bytes at `off` after writing `src` at `off` yields `src`
followed by the old bytes at `off + src.length`. -/
theorem readBytes_writeBytes_extend (b src : List Nat) (off n : Nat)
    (h : off ≤ b.length) :
    readBytes (writeBytes b off src) off (src.length + n) =
      src ++ readBytes b (off + src.length) n := by
  unfold readBytes
  rw [drop_writeBytes b src off h, List.take_append_eq_append_take]
  simp

theorem assoc_get_put_self (k : List Nat) (r : Nat) (t : Table) :
    assoc_get k (assoc_put k r t) = some r := by
  simp [assoc_get, assoc_put]

theorem assoc_get_none_of_absent (k : List Nat) (t : Table)
    (h : ∀ p ∈ t, p.1 ≠ k) :
    assoc_get k t = none := by
  induction t with
  | nil => rfl
  | cons p rest ih =>
      obtain ⟨a, x⟩ := p
      have ha : a ≠ k := h (a, x) (by simp)
      simp only [assoc_get, if_neg ha]
      exact ih (fun q hq => h q (by simp [hq]))

theorem assoc_get_delete_self (k : List Nat) (t : Table)
    (h : t.Pairwise (fun a b => a.1 ≠ b.1)) :
    assoc_get k (assoc_delete k t) = none := by
  induction t with
  | nil => rfl
  | cons p rest ih =>
      obtain ⟨a, x⟩ := p
      obtain ⟨hp, hrest⟩ := List.pairwise_cons.mp h
      by_cases hk : a = k
      · simp only [assoc_delete, if_pos hk]
        exact assoc_get_none_of_absent k rest
          (fun q hq heq => (hp q hq) (hk.trans heq.symm))
      · simp only [assoc_delete, if_neg hk, assoc_get, if_neg hk]
        exact ih hrest

theorem assoc_get_delete_ne (k k' : List Nat) (t : Table) (h : k' ≠ k) :
    assoc_get k' (assoc_delete k t) = assoc_get k' t := by
  induction t with
  | nil => rfl
  | cons p rest ih =>
      obtain ⟨a, x⟩ := p
      by_cases hk : a = k
      · simp only [assoc_delete, if_pos hk, assoc_get]
        rw [if_neg (by rw [hk]; exact fun hkk => h hkk.symm)]
      · simp only [assoc_delete, if_neg hk, assoc_get]
        by_cases hk' : a = k'
        · simp [hk']
        · simp [hk', ih]

theorem heapGet_cons_self (r : Nat) (it : Item) (h : Heap) :
    heapGet ((r, it) :: h) r = some it := by
  simp [heapGet]

theorem heapGet_cons_ne (r r' : Nat) (it : Item) (h : Heap) (hne : r ≠ r') :
    heapGet ((r, it) :: h) r' = heapGet h r' := by
  simp [heapGet, hne]

theorem heapGet_none_of_absent (h : Heap) (r : Nat)
    (habs : ∀ p ∈ h, p.1 ≠ r) :
    heapGet h r = none := by
  induction h with
  | nil => rfl
  | cons p rest ih =>
      obtain ⟨a, x⟩ := p
      have ha : a ≠ r := habs (a, x) (by simp)
      simp only [heapGet, if_neg ha]
      exact ih (fun q hq => habs q (by simp [hq]))

theorem heapGet_heapSet_self (h : Heap) (r : Nat) (it it' : Item)
    (hget : heapGet h r = some it) :
    heapGet (heapSet h r it') r = some it' := by
  induction h with
  | nil => simp [heapGet] at hget
  | cons p rest ih =>
      obtain ⟨a, x⟩ := p
      by_cases hr : a = r
      · simp [heapSet, heapGet, hr]
      · simp only [heapSet, heapGet, hr, if_false] at *
        exact ih hget

theorem heapGet_heapSet_ne (h : Heap) (r r' : Nat) (it' : Item) (hne : r ≠ r') :
    heapGet (heapSet h r it') r' = heapGet h r' := by
  induction h with
  | nil => simp [heapSet, heapGet]
  | cons p rest ih =>
      obtain ⟨a, x⟩ := p
      by_cases hr : a = r
      · subst hr
        simp [heapSet, heapGet, hne]
      · simp [heapSet, heapGet, hr, ih]

theorem heapGet_heapRemove_ne (h : Heap) (r r' : Nat) (hne : r ≠ r') :
    heapGet (heapRemove h r) r' = heapGet h r' := by
  induction h with
  | nil => rfl
  | cons p rest ih =>
      obtain ⟨a, x⟩ := p
      by_cases hr : a = r
      · subst hr
        simp [heapRemove, heapGet, hne]
      · simp [heapRemove, heapGet, hr, ih]

theorem heapGet_heapRemove_self (h : Heap) (r : Nat)
    (huniq : h.Pairwise (fun a b => a.1 ≠ b.1)) :
    heapGet (heapRemove h r) r = none := by
  induction h with
  | nil => rfl
  | cons p rest ih =>
      obtain ⟨a, x⟩ := p
      obtain ⟨hp, hrest⟩ := List.pairwise_cons.mp huniq
      by_cases hr : a = r
      · simp only [heapRemove, if_pos hr]
        exact heapGet_none_of_absent rest r
          (fun q hq heq => (hp q hq) (hr.trans heq.symm))
      · simp only [heapRemove, if_neg hr, heapGet, if_neg hr]
        exact ih hrest

theorem map_fst_heapSet (h : Heap) (r : Nat) (it : Item) :
    (heapSet h r it).map Prod.fst = h.map Prod.fst := by
  induction h with
  | nil => rfl
  | cons p rest ih =>
      obtain ⟨a, x⟩ := p
      by_cases hr : a = r
      · simp [heapSet, hr]
      · simp [heapSet, hr, ih]

theorem pairwise_heapSet (h : Heap) (r : Nat) (it : Item)
    (huniq : h.Pairwise (fun a b => a.1 ≠ b.1)) :
    (heapSet h r it).Pairwise (fun a b => a.1 ≠ b.1) := by
  have h1 : (h.map Prod.fst).Pairwise Ne := (List.pairwise_map).mpr huniq
  have h2 : ((heapSet h r it).map Prod.fst).Pairwise Ne := by
    rw [map_fst_heapSet]; exact h1
  exact (List.pairwise_map).mp h2

/-- `item_val` ignores `vtype`, so classification does not change it. -/
@[simp] theorem item_val_check_type (it : Item) :
    item_val (item_check_type it) = item_val it := by
  unfold item_check_type
  split <;> rfl

@[simp] theorem check_type_klen (it : Item) : (item_check_type it).klen = it.klen := by
  unfold item_check_type; split <;> rfl

@[simp] theorem check_type_key (it : Item) : (item_check_type it).key = it.key := by
  unfold item_check_type; split <;> rfl

@[simp] theorem check_type_vlen (it : Item) : (item_check_type it).vlen = it.vlen := by
  unfold item_check_type; split <;> rfl

@[simp] theorem check_type_exptime (it : Item) : (item_check_type it).exptime = it.exptime := by
  unfold item_check_type; split <;> rfl

@[simp] theorem check_type_id (it : Item) : (item_check_type it).id = it.id := by
  unfold item_check_type; split <;> rfl

@[simp] theorem check_type_refcount (it : Item) : (item_check_type it).refcount = it.refcount := by
  unfold item_check_type; split <;> rfl

@[simp] theorem check_type_is_linked (it : Item) : (item_check_type it).is_linked = it.is_linked := by
  unfold item_check_type; split <;> rfl

@[simp] theorem check_type_has_cas (it : Item) : (item_check_type it).has_cas = it.has_cas := by
  unfold item_check_type; split <;> rfl

@[simp] theorem check_type_in_freeq (it : Item) : (item_check_type it).in_freeq = it.in_freeq := by
  unfold item_check_type; split <;> rfl

@[simp] theorem check_type_is_raligned (it : Item) : (item_check_type it).is_raligned = it.is_raligned := by
  unfold item_check_type; split <;> rfl

@[simp] theorem check_type_cas (it : Item) : (item_check_type it).cas = it.cas := by
  unfold item_check_type; split <;> rfl

@[simp] theorem check_type_buf (it : Item) : (item_check_type it).buf = it.buf := by
  unfold item_check_type; split <;> rfl

theorem check_type_vtype (it : Item) :
    (item_check_type it).vtype =
      if bstring_atou64_ok (item_val it) then VType.V_INT else VType.V_STR := by
  unfold item_check_type
  split <;> simp_all

@[simp] theorem set_cas_klen (it : Item) (c : Nat) : (item_set_cas it c).klen = it.klen := by
  unfold item_set_cas; split <;> rfl

@[simp] theorem set_cas_key (it : Item) (c : Nat) : (item_set_cas it c).key = it.key := by
  unfold item_set_cas; split <;> rfl

@[simp] theorem set_cas_vlen (it : Item) (c : Nat) : (item_set_cas it c).vlen = it.vlen := by
  unfold item_set_cas; split <;> rfl

@[simp] theorem set_cas_exptime (it : Item) (c : Nat) : (item_set_cas it c).exptime = it.exptime := by
  unfold item_set_cas; split <;> rfl

@[simp] theorem set_cas_id (it : Item) (c : Nat) : (item_set_cas it c).id = it.id := by
  unfold item_set_cas; split <;> rfl

@[simp] theorem set_cas_refcount (it : Item) (c : Nat) : (item_set_cas it c).refcount = it.refcount := by
  unfold item_set_cas; split <;> rfl

@[simp] theorem set_cas_is_linked (it : Item) (c : Nat) : (item_set_cas it c).is_linked = it.is_linked := by
  unfold item_set_cas; split <;> rfl

@[simp] theorem set_cas_has_cas (it : Item) (c : Nat) : (item_set_cas it c).has_cas = it.has_cas := by
  unfold item_set_cas; split <;> rfl

@[simp] theorem set_cas_in_freeq (it : Item) (c : Nat) : (item_set_cas it c).in_freeq = it.in_freeq := by
  unfold item_set_cas; split <;> rfl

@[simp] theorem set_cas_is_raligned (it : Item) (c : Nat) : (item_set_cas it c).is_raligned = it.is_raligned := by
  unfold item_set_cas; split <;> rfl

@[simp] theorem set_cas_buf (it : Item) (c : Nat) : (item_set_cas it c).buf = it.buf := by
  unfold item_set_cas; split <;> rfl

theorem set_cas_cas (it : Item) (c : Nat) :
    (item_set_cas it c).cas = if it.has_cas then c else it.cas := by
  unfold item_set_cas; split <;> simp_all

@[simp] theorem item_get_cas_set_cas (it : Item) (c : Nat) :
    item_get_cas (item_set_cas it c) = if it.has_cas then c else item_get_cas it := by
  unfold item_get_cas item_set_cas; split <;> simp_all

@[simp] theorem dataCap_check_type (it : Item) : dataCap (item_check_type it) = dataCap it := by
  unfold item_check_type; split <;> rfl

@[simp] theorem dataCap_set_cas (it : Item) (c : Nat) : dataCap (item_set_cas it c) = dataCap it := by
  unfold item_set_cas; split <;> rfl

@[simp] theorem item_val_set_cas (it : Item) (c : Nat) :
    item_val (item_set_cas it c) = item_val it := by
  unfold item_set_cas; split <;> rfl

/-- A valid `slab_id` result names a class the request fits in. -/
theorem slab_id_fits (n : Nat) (h : slab_id n ≠ SLABCLASS_INVALID_ID) :
    SLABCLASS_MIN_ID ≤ slab_id n ∧ slab_id n ≤ SLABCLASS_MAX_ID ∧
      n ≤ slab_item_size (slab_id n) := by
  unfold slab_id at *
  unfold SLABCLASS_MIN_ID SLABCLASS_MAX_ID SLABCLASS_INVALID_ID at *
  unfold slab_item_size
  split_ifs at * <;> norm_num <;> omega

/-- When the item's class is valid and the value fits the class per
`item_slabid`, the value fits the item's data region. -/
theorem vlen_le_dataCap (useCas : Bool) (it : Item) (vlen : Nat)
    (hcas : it.has_cas = useCas)
    (hid : item_slabid useCas it.klen vlen = it.id)
    (hmax : it.id ≤ SLABCLASS_MAX_ID) :
    vlen ≤ dataCap it := by
  have hne : slab_id (item_ntotal it.klen vlen useCas) ≠ SLABCLASS_INVALID_ID := by
    rw [item_slabid] at hid
    rw [hid]
    unfold SLABCLASS_MAX_ID SLABCLASS_INVALID_ID at *
    omega
  have hfit := slab_id_fits (item_ntotal it.klen vlen useCas) hne
  rw [item_slabid] at hid
  rw [hid] at hfit
  unfold dataCap
  unfold item_ntotal at hfit
  rw [hcas]
  omega

/-! ### Projection lemmas for `item_next_cas` and unfolding lemmas for the
stateful operations (resolving the heap lookup at the head of each). -/

@[simp] theorem next_cas_fst (s : State) :
    (item_next_cas s).1 = if s.use_cas then s.cas_id + 1 else 0 := by
  unfold item_next_cas; split <;> simp_all

@[simp] theorem next_cas_heap (s : State) : (item_next_cas s).2.heap = s.heap := by
  unfold item_next_cas; split <;> rfl

@[simp] theorem next_cas_table (s : State) : (item_next_cas s).2.table = s.table := by
  unfold item_next_cas; split <;> rfl

@[simp] theorem next_cas_freeCount (s : State) : (item_next_cas s).2.freeCount = s.freeCount := by
  unfold item_next_cas; split <;> rfl

@[simp] theorem next_cas_nextRef (s : State) : (item_next_cas s).2.nextRef = s.nextRef := by
  unfold item_next_cas; split <;> rfl

@[simp] theorem next_cas_cas_id (s : State) :
    (item_next_cas s).2.cas_id = if s.use_cas then s.cas_id + 1 else s.cas_id := by
  unfold item_next_cas; split <;> simp_all

@[simp] theorem next_cas_use_cas (s : State) : (item_next_cas s).2.use_cas = s.use_cas := by
  unfold item_next_cas; split <;> rfl

@[simp] theorem next_cas_now (s : State) : (item_next_cas s).2.now = s.now := by
  unfold item_next_cas; split <;> rfl

@[simp] theorem next_cas_slabRef (s : State) : (item_next_cas s).2.slabRef = s.slabRef := by
  unfold item_next_cas; split <;> rfl

@[simp] theorem next_cas_item_req (s : State) : (item_next_cas s).2.item_req = s.item_req := by
  unfold item_next_cas; split <;> rfl

@[simp] theorem next_cas_item_req_ex (s : State) : (item_next_cas s).2.item_req_ex = s.item_req_ex := by
  unfold item_next_cas; split <;> rfl

@[simp] theorem next_cas_item_link (s : State) : (item_next_cas s).2.item_link = s.item_link := by
  unfold item_next_cas; split <;> rfl

@[simp] theorem next_cas_item_unlink (s : State) : (item_next_cas s).2.item_unlink = s.item_unlink := by
  unfold item_next_cas; split <;> rfl

@[simp] theorem next_cas_item_remove (s : State) : (item_next_cas s).2.item_remove = s.item_remove := by
  unfold item_next_cas; split <;> rfl

@[simp] theorem next_cas_item_curr (s : State) : (item_next_cas s).2.item_curr = s.item_curr := by
  unfold item_next_cas; split <;> rfl

@[simp] theorem next_cas_item_keyval_byte (s : State) :
    (item_next_cas s).2.item_keyval_byte = s.item_keyval_byte := by
  unfold item_next_cas; split <;> rfl

@[simp] theorem next_cas_item_val_byte (s : State) :
    (item_next_cas s).2.item_val_byte = s.item_val_byte := by
  unfold item_next_cas; split <;> rfl

theorem item_acquire_refcount_eq (s : State) (r : Nat) (it : Item)
    (hit : heapGet s.heap r = some it) :
    item_acquire_refcount r s =
      { s with heap := heapSet s.heap r { it with refcount := it.refcount + 1 },
               slabRef := s.slabRef + 1 } := by
  unfold item_acquire_refcount
  rw [hit]

theorem item_link_eq (s : State) (r : Nat) (it : Item)
    (hit : heapGet s.heap r = some it) :
    item_link r s =
      { (item_next_cas s).2 with
        heap := heapSet (item_next_cas s).2.heap r
          (item_set_cas { it with is_linked := true } (item_next_cas s).1),
        table := assoc_put
          (item_set_cas { it with is_linked := true } (item_next_cas s).1).key r
          (item_next_cas s).2.table,
        item_link := (item_next_cas s).2.item_link + 1,
        item_curr := (item_next_cas s).2.item_curr + 1,
        item_keyval_byte := (item_next_cas s).2.item_keyval_byte +
          (((item_set_cas { it with is_linked := true } (item_next_cas s).1).klen +
            (item_set_cas { it with is_linked := true } (item_next_cas s).1).vlen : Nat) : Int),
        item_val_byte := (item_next_cas s).2.item_val_byte +
          (((item_set_cas { it with is_linked := true } (item_next_cas s).1).vlen : Nat) : Int) } := by
  unfold item_link
  rw [hit]

theorem item_unlink_eq (s : State) (r : Nat) (it : Item)
    (hit : heapGet s.heap r = some it) :
    item_unlink r s =
      (let s1 : State :=
        { s with item_unlink := s.item_unlink + 1,
                 item_curr := s.item_curr - 1,
                 item_keyval_byte := s.item_keyval_byte - ((it.klen + it.vlen : Nat) : Int),
                 item_val_byte := s.item_val_byte - ((it.vlen : Nat) : Int) }
       if it.is_linked then
         let s2 : State :=
           { s1 with heap := heapSet s1.heap r { it with is_linked := false },
                     table := assoc_delete it.key s1.table }
         if it.refcount = 0 then item_free r s2 else s2
       else s1) := by
  unfold item_unlink
  rw [hit]

theorem item_release_refcount_eq (s : State) (r : Nat) (it : Item)
    (hit : heapGet s.heap r = some it) :
    item_release_refcount r s =
      (let it' := if it.refcount ≠ 0 then { it with refcount := it.refcount - 1 } else it
       let s' := if it.refcount ≠ 0 then
                   { s with heap := heapSet s.heap r it', slabRef := s.slabRef - 1 }
                 else s
       if it'.refcount = 0 ∧ it'.is_linked = false then item_free r s' else s') := by
  unfold item_release_refcount
  rw [hit]

theorem heapModify_eq (s : State) (r : Nat) (f : Item → Item) (it : Item)
    (hit : heapGet s.heap r = some it) :
    heapModify r f s = { s with heap := heapSet s.heap r (f it) } := by
  unfold heapModify
  rw [hit]

theorem item_get_eq_miss (s : State) (k : List Nat)
    (htab : assoc_get k s.table = none) :
    item_get k s = (none, s) := by
  unfold item_get
  rw [htab]

theorem item_get_eq_hit (s : State) (k : List Nat) (r : Nat) (it : Item)
    (htab : assoc_get k s.table = some r)
    (hit : heapGet s.heap r = some it)
    (hexp : ¬(it.exptime ≠ 0 ∧ it.exptime ≤ s.now)) :
    item_get k s = (some r, item_acquire_refcount r s) := by
  unfold item_get
  rw [htab]
  show (match heapGet s.heap r with
    | none => ((none : Option Nat), s)
    | some it =>
        if it.exptime ≠ 0 ∧ it.exptime ≤ s.now then (none, item_unlink r s)
        else (some r, item_acquire_refcount r s)) = _
  rw [hit]
  show (if it.exptime ≠ 0 ∧ it.exptime ≤ s.now then ((none : Option Nat), item_unlink r s)
    else (some r, item_acquire_refcount r s)) = _
  rw [if_neg hexp]

theorem item_get_eq_expired (s : State) (k : List Nat) (r : Nat) (it : Item)
    (htab : assoc_get k s.table = some r)
    (hit : heapGet s.heap r = some it)
    (hexp : it.exptime ≠ 0 ∧ it.exptime ≤ s.now) :
    item_get k s = (none, item_unlink r s) := by
  unfold item_get
  rw [htab]
  show (match heapGet s.heap r with
    | none => ((none : Option Nat), s)
    | some it =>
        if it.exptime ≠ 0 ∧ it.exptime ≤ s.now then (none, item_unlink r s)
        else (some r, item_acquire_refcount r s)) = _
  rw [hit]
  show (if it.exptime ≠ 0 ∧ it.exptime ≤ s.now then ((none : Option Nat), item_unlink r s)
    else (some r, item_acquire_refcount r s)) = _
  rw [if_pos hexp]

theorem item_get_eq_dangling (s : State) (k : List Nat) (r : Nat)
    (htab : assoc_get k s.table = some r)
    (hit : heapGet s.heap r = none) :
    item_get k s = (none, s) := by
  unfold item_get
  rw [htab]
  show (match heapGet s.heap r with
    | none => ((none : Option Nat), s)
    | some it =>
        if it.exptime ≠ 0 ∧ it.exptime ≤ s.now then (none, item_unlink r s)
        else (some r, item_acquire_refcount r s)) = _
  rw [hit]

theorem item_update_eq (s : State) (r : Nat) (v : List Nat) (it : Item)
    (hit : heapGet s.heap r = some it) :
    item_update r v s =
      (if item_slabid s.use_cas it.klen v.length ≠ it.id then (ITEM_EOVERSIZED, s)
       else (ITEM_OK, { s with heap := heapSet s.heap r (item_check_type
         { it with vlen := v.length,
                   buf := writeBytes it.buf (item_data { it with vlen := v.length }) v }) })) := by
  unfold item_update
  rw [hit]

/-! ### The item built by a successful allocation, and generic
preservation lemmas used to execute the write paths symbolically. -/

/-- The header-initialized item a successful `item_alloc` places in the
fresh chunk (key copied, value region still zeroed). -/
def allocItem (key : List Nat) (exptime vlen : Nat) (useCas : Bool) : Item :=
  let id := slab_id (item_ntotal key.length vlen useCas)
  { klen := key.length, key := key, vlen := vlen, exptime := exptime, id := id,
    refcount := 1, is_linked := false, has_cas := useCas, in_freeq := false,
    is_raligned := false, cas := 0, vtype := VType.V_STR,
    buf := List.replicate
      (slab_item_size id - ITEM_HDR_SIZE - (if useCas then 8 else 0) - key.length) 0 }

@[simp] theorem allocItem_klen (k : List Nat) (e vl : Nat) (c : Bool) :
    (allocItem k e vl c).klen = k.length := rfl

@[simp] theorem allocItem_key (k : List Nat) (e vl : Nat) (c : Bool) :
    (allocItem k e vl c).key = k := rfl

@[simp] theorem allocItem_vlen (k : List Nat) (e vl : Nat) (c : Bool) :
    (allocItem k e vl c).vlen = vl := rfl

@[simp] theorem allocItem_exptime (k : List Nat) (e vl : Nat) (c : Bool) :
    (allocItem k e vl c).exptime = e := rfl

@[simp] theorem allocItem_id (k : List Nat) (e vl : Nat) (c : Bool) :
    (allocItem k e vl c).id = slab_id (item_ntotal k.length vl c) := rfl

@[simp] theorem allocItem_refcount (k : List Nat) (e vl : Nat) (c : Bool) :
    (allocItem k e vl c).refcount = 1 := rfl

@[simp] theorem allocItem_is_linked (k : List Nat) (e vl : Nat) (c : Bool) :
    (allocItem k e vl c).is_linked = false := rfl

@[simp] theorem allocItem_has_cas (k : List Nat) (e vl : Nat) (c : Bool) :
    (allocItem k e vl c).has_cas = c := rfl

@[simp] theorem allocItem_in_freeq (k : List Nat) (e vl : Nat) (c : Bool) :
    (allocItem k e vl c).in_freeq = false := rfl

@[simp] theorem allocItem_is_raligned (k : List Nat) (e vl : Nat) (c : Bool) :
    (allocItem k e vl c).is_raligned = false := rfl

@[simp] theorem allocItem_cas (k : List Nat) (e vl : Nat) (c : Bool) :
    (allocItem k e vl c).cas = 0 := rfl

@[simp] theorem allocItem_buf (k : List Nat) (e vl : Nat) (c : Bool) :
    (allocItem k e vl c).buf = List.replicate
      (slab_item_size (slab_id (item_ntotal k.length vl c)) - ITEM_HDR_SIZE -
        (if c then 8 else 0) - k.length) 0 := rfl

theorem item_alloc_eq_success (k : List Nat) (e vl : Nat) (s : State)
    (hid : slab_id (item_ntotal k.length vl s.use_cas) ≠ SLABCLASS_INVALID_ID)
    (hfree : s.freeCount ≠ 0) :
    item_alloc k e vl s = (some s.nextRef, ITEM_OK,
      { s with heap := (s.nextRef, allocItem k e vl s.use_cas) :: s.heap,
               freeCount := s.freeCount - 1,
               nextRef := s.nextRef + 1,
               slabRef := s.slabRef + 1,
               item_req := s.item_req + 1 }) := by
  unfold item_alloc allocItem
  simp [hid, hfree]

theorem item_alloc_eq_oversized (k : List Nat) (e vl : Nat) (s : State)
    (hid : slab_id (item_ntotal k.length vl s.use_cas) = SLABCLASS_INVALID_ID) :
    item_alloc k e vl s = (none, ITEM_EOVERSIZED, s) := by
  unfold item_alloc
  simp [hid]

theorem item_alloc_eq_nomem (k : List Nat) (e vl : Nat) (s : State)
    (hid : slab_id (item_ntotal k.length vl s.use_cas) ≠ SLABCLASS_INVALID_ID)
    (hfree : s.freeCount = 0) :
    item_alloc k e vl s =
      (none, ITEM_ENOMEM, { s with item_req_ex := s.item_req_ex + 1 }) := by
  unfold item_alloc
  simp [hid, hfree]

/-- The item stored by `item_set` before linking: allocated, value copied
left-aligned, type classified. -/
def setItem (k : List Nat) (e : Nat) (v : List Nat) (useCas : Bool) : Item :=
  item_check_type { allocItem k e v.length useCas with
    buf := writeBytes (allocItem k e v.length useCas).buf 0 v }

theorem item_val_setItem (k v : List Nat) (e : Nat) (useCas : Bool)
    (hid : slab_id (item_ntotal k.length v.length useCas) ≠ SLABCLASS_INVALID_ID) :
    item_val (setItem k e v useCas) = v := by
  have hfit := (slab_id_fits _ hid).2.2
  unfold setItem
  rw [item_val_check_type]
  unfold item_val item_data
  simp only [allocItem_is_raligned, Bool.false_eq_true, if_false]
  show readBytes (writeBytes (allocItem k e v.length useCas).buf 0 v) 0
    ({ allocItem k e v.length useCas with
        buf := writeBytes (allocItem k e v.length useCas).buf 0 v } : Item).vlen = v
  rw [show ({ allocItem k e v.length useCas with
      buf := writeBytes (allocItem k e v.length useCas).buf 0 v } : Item).vlen
      = v.length from rfl]
  apply readBytes_writeBytes
  rw [allocItem_buf, List.length_replicate]
  have h2 : item_ntotal k.length v.length useCas =
      ITEM_HDR_SIZE + (if useCas then 8 else 0) + k.length + v.length := rfl
  omega

/-- `item_get` leaves alone the parts of the state a fresh reference `R`
cares about, whenever the looked-up reference cannot be `R`. -/
theorem item_get_preserves (k : List Nat) (t : State) (R : Nat)
    (hR : ∀ r, assoc_get k t.table = some r → r ≠ R) :
    (item_get k t).2.now = t.now ∧
    (item_get k t).2.nextRef = t.nextRef ∧
    (item_get k t).2.use_cas = t.use_cas ∧
    heapGet (item_get k t).2.heap R = heapGet t.heap R := by
  cases htab : assoc_get k t.table with
  | none =>
      rw [item_get_eq_miss t k htab]
      exact ⟨rfl, rfl, rfl, rfl⟩
  | some r =>
      have hr : r ≠ R := hR r htab
      cases hit : heapGet t.heap r with
      | none =>
          rw [item_get_eq_dangling t k r htab hit]
          exact ⟨rfl, rfl, rfl, rfl⟩
      | some it =>
          by_cases hexp : it.exptime ≠ 0 ∧ it.exptime ≤ t.now
          · rw [item_get_eq_expired t k r it htab hit hexp]
            rw [item_unlink_eq t r it hit]
            by_cases hl : it.is_linked
            · simp only [hl, if_true, ite_true]
              by_cases hrc : it.refcount = 0
              · simp only [hrc, if_pos, ite_true]
                refine ⟨by trivial, by trivial, by trivial, ?_⟩
                simp only [item_free]
                rw [heapGet_heapRemove_ne _ r R hr, heapGet_heapSet_ne _ r R _ hr]
              · simp only [hrc, ite_false, if_false]
                refine ⟨by trivial, by trivial, by trivial, ?_⟩
                rw [heapGet_heapSet_ne _ r R _ hr]
            · simp only [hl, Bool.false_eq_true, if_false, ite_false]
              exact ⟨by trivial, by trivial, by trivial, by trivial⟩
          · rw [item_get_eq_hit t k r it htab hit hexp]
            rw [item_acquire_refcount_eq t r it hit]
            refine ⟨rfl, rfl, rfl, ?_⟩
            rw [heapGet_heapSet_ne _ r R _ hr]

@[simp] theorem heapSet_cons_self (r : Nat) (it it' : Item) (h : Heap) :
    heapSet ((r, it') :: h) r it = (r, it) :: h := by
  simp [heapSet]

@[simp] theorem item_val_update_linked (x : Item) (b : Bool) :
    item_val { x with is_linked := b } = item_val x := rfl

@[simp] theorem item_val_update_refcount (x : Item) (n : Nat) :
    item_val { x with refcount := n } = item_val x := rfl

@[simp] theorem setItem_klen (k v : List Nat) (e : Nat) (c : Bool) :
    (setItem k e v c).klen = k.length := by simp [setItem]

@[simp] theorem setItem_key (k v : List Nat) (e : Nat) (c : Bool) :
    (setItem k e v c).key = k := by simp [setItem]

@[simp] theorem setItem_vlen (k v : List Nat) (e : Nat) (c : Bool) :
    (setItem k e v c).vlen = v.length := by simp [setItem]

@[simp] theorem setItem_exptime (k v : List Nat) (e : Nat) (c : Bool) :
    (setItem k e v c).exptime = e := by simp [setItem]

@[simp] theorem setItem_id (k v : List Nat) (e : Nat) (c : Bool) :
    (setItem k e v c).id = slab_id (item_ntotal k.length v.length c) := by simp [setItem]

@[simp] theorem setItem_refcount (k v : List Nat) (e : Nat) (c : Bool) :
    (setItem k e v c).refcount = 1 := by simp [setItem]

@[simp] theorem setItem_is_linked (k v : List Nat) (e : Nat) (c : Bool) :
    (setItem k e v c).is_linked = false := by simp [setItem]

@[simp] theorem setItem_has_cas (k v : List Nat) (e : Nat) (c : Bool) :
    (setItem k e v c).has_cas = c := by simp [setItem]

@[simp] theorem setItem_is_raligned (k v : List Nat) (e : Nat) (c : Bool) :
    (setItem k e v c).is_raligned = false := by simp [setItem]

@[simp] theorem setItem_cas (k v : List Nat) (e : Nat) (c : Bool) :
    (setItem k e v c).cas = 0 := by simp [setItem]

/-- `item_set` after a successful allocation at the fresh reference. -/
theorem item_set_eq_alloc_ok (k v : List Nat) (e : Nat) (s : State) (R : Nat) (s1 : State)
    (halloc : item_alloc k e v.length s = (some R, ITEM_OK, s1)) :
    item_set k v e s =
      (match item_get k (heapModify R
          (fun it => item_check_type { it with buf := writeBytes it.buf (item_data it) v }) s1) with
       | (none, s3) => (ITEM_OK, item_release_refcount R (item_link R s3))
       | (some rOld, s3) =>
           (ITEM_OK, item_release_refcount R
             (item_release_refcount rOld (item_relink rOld R s3)))) := by
  unfold item_set
  rw [halloc]

/-- A hit from `item_get` names the reference the hash index maps the key
to. -/
theorem item_get_some_table (k : List Nat) (t : State) (r : Nat)
    (h : (item_get k t).1 = some r) :
    assoc_get k t.table = some r := by
  cases htab : assoc_get k t.table with
  | none =>
      rw [item_get_eq_miss t k htab] at h
      exact Option.noConfusion h
  | some r0 =>
      cases hit : heapGet t.heap r0 with
      | none =>
          rw [item_get_eq_dangling t k r0 htab hit] at h
          exact Option.noConfusion h
      | some it =>
          by_cases hexp : it.exptime ≠ 0 ∧ it.exptime ≤ t.now
          · rw [item_get_eq_expired t k r0 it htab hit hexp] at h
            exact Option.noConfusion h
          · rw [item_get_eq_hit t k r0 it htab hit hexp] at h
            simp only [Option.some.injEq] at h
            rw [h]

/-- An unlink at one reference does not touch the clock, the CAS counter,
the fresh-reference counter, nor any other reference's heap entry. -/
theorem unlink_other_facts (t : State) (r : Nat) :
    (item_unlink r t).now = t.now ∧
    (item_unlink r t).nextRef = t.nextRef ∧
    (item_unlink r t).use_cas = t.use_cas ∧
    (item_unlink r t).cas_id = t.cas_id ∧
    (∀ r', r' ≠ r → heapGet (item_unlink r t).heap r' = heapGet t.heap r') := by
  unfold item_unlink
  cases hit : heapGet t.heap r with
  | none => exact ⟨rfl, rfl, rfl, rfl, fun _ _ => rfl⟩
  | some it =>
      by_cases hl : it.is_linked
      · simp only [hl, if_true, ite_true]
        by_cases hrc : it.refcount = 0
        · simp only [hrc, if_pos, ite_true]
          refine ⟨by trivial, by trivial, by trivial, by trivial, fun r' hr' => ?_⟩
          simp only [item_free]
          rw [heapGet_heapRemove_ne _ r r' (fun h => hr' h.symm),
              heapGet_heapSet_ne _ r r' _ (fun h => hr' h.symm)]
        · simp only [hrc, ite_false, if_false]
          refine ⟨by trivial, by trivial, by trivial, by trivial, fun r' hr' => ?_⟩
          rw [heapGet_heapSet_ne _ r r' _ (fun h => hr' h.symm)]
      · simp only [hl, Bool.false_eq_true, if_false, ite_false]
        exact ⟨by trivial, by trivial, by trivial, by trivial, fun _ _ => by trivial⟩

/-- Clean closed form of `_item_link`. -/
theorem item_link_eq' (t : State) (R : Nat) (j : Item)
    (hj : heapGet t.heap R = some j) :
    item_link R t =
      { t with
        heap := heapSet t.heap R
          (item_set_cas { j with is_linked := true } (if t.use_cas then t.cas_id + 1 else 0)),
        table := assoc_put j.key R t.table,
        cas_id := if t.use_cas then t.cas_id + 1 else t.cas_id,
        item_link := t.item_link + 1,
        item_curr := t.item_curr + 1,
        item_keyval_byte := t.item_keyval_byte + ((j.klen + j.vlen : Nat) : Int),
        item_val_byte := t.item_val_byte + ((j.vlen : Nat) : Int) } := by
  rw [item_link_eq t R j hj]
  by_cases hc : t.use_cas
  · simp [item_next_cas, hc, assoc_put]
  · simp [item_next_cas, hc, assoc_put]

/-- A release at one reference never touches the hash table, the clock,
the fresh-reference counter, nor any other reference's heap entry. -/
theorem release_other_facts (t : State) (r : Nat) :
    (item_release_refcount r t).table = t.table ∧
    (item_release_refcount r t).now = t.now ∧
    (item_release_refcount r t).nextRef = t.nextRef ∧
    (item_release_refcount r t).use_cas = t.use_cas ∧
    (∀ r', r' ≠ r → heapGet (item_release_refcount r t).heap r' = heapGet t.heap r') := by
  unfold item_release_refcount
  cases hit : heapGet t.heap r with
  | none => exact ⟨rfl, rfl, rfl, rfl, fun _ _ => rfl⟩
  | some it =>
      by_cases h0 : it.refcount = 0
      · simp only [h0, ne_eq, not_true_eq_false, ite_false, if_false]
        by_cases hfr : (0 : Nat) = 0 ∧ it.is_linked = false
        · rw [if_pos (by exact ⟨by trivial, hfr.2⟩)]
          simp only [item_free]
          exact ⟨by trivial, by trivial, by trivial, by trivial,
            fun r' hr' => heapGet_heapRemove_ne _ r r' (fun h => hr' h.symm)⟩
        · rw [if_neg (by intro hc; exact hfr ⟨by trivial, hc.2⟩)]
          exact ⟨by trivial, by trivial, by trivial, by trivial, fun _ _ => rfl⟩
      · simp only [h0, ne_eq, not_false_eq_true, ite_true, if_true]
        by_cases hfr : it.refcount - 1 = 0 ∧ it.is_linked = false
        · rw [if_pos hfr]
          simp only [item_free]
          refine ⟨by trivial, by trivial, by trivial, by trivial, fun r' hr' => ?_⟩
          rw [heapGet_heapRemove_ne _ r r' (fun h => hr' h.symm),
              heapGet_heapSet_ne _ r r' _ (fun h => hr' h.symm)]
        · rw [if_neg hfr]
          refine ⟨by trivial, by trivial, by trivial, by trivial, fun r' hr' => ?_⟩
          rw [heapGet_heapSet_ne _ r r' _ (fun h => hr' h.symm)]

/-- The just-written item for key `k` as `_item_link` leaves it: linked
bit set and CAS token `c` stamped. -/
def linkedSetItem (k v : List Nat) (e c : Nat) (useCas : Bool) : Item :=
  item_set_cas { setItem k e v useCas with is_linked := true } c

@[simp] theorem linkedSetItem_key (k v : List Nat) (e c : Nat) (u : Bool) :
    (linkedSetItem k v e c u).key = k := by simp [linkedSetItem]

@[simp] theorem linkedSetItem_vlen (k v : List Nat) (e c : Nat) (u : Bool) :
    (linkedSetItem k v e c u).vlen = v.length := by simp [linkedSetItem]

@[simp] theorem linkedSetItem_exptime (k v : List Nat) (e c : Nat) (u : Bool) :
    (linkedSetItem k v e c u).exptime = e := by simp [linkedSetItem]

@[simp] theorem linkedSetItem_refcount (k v : List Nat) (e c : Nat) (u : Bool) :
    (linkedSetItem k v e c u).refcount = 1 := by simp [linkedSetItem]

@[simp] theorem linkedSetItem_is_linked (k v : List Nat) (e c : Nat) (u : Bool) :
    (linkedSetItem k v e c u).is_linked = true := by simp [linkedSetItem]

@[simp] theorem item_val_linkedSetItem (k v : List Nat) (e c : Nat) (u : Bool) :
    item_val (linkedSetItem k v e c u) = item_val (setItem k e v u) := by
  unfold linkedSetItem
  rw [item_val_set_cas, item_val_update_linked]

/-- Common tail of the write paths: once the freshly written item for key
`k` sits linked (with some CAS token `c`) at reference `R` and heads the
hash index, the final refcount release keeps it linked and a follow-up
get returns it with the stored value. -/
theorem set_tail_facts (u : State) (R : Nat) (k v : List Nat) (e c : Nat) (useCas : Bool)
    (hitL : heapGet u.heap R = some (linkedSetItem k v e c useCas))
    (htabu : assoc_get k u.table = some R)
    (hnowu : ¬(e ≠ 0 ∧ e ≤ u.now))
    (hid : slab_id (item_ntotal k.length v.length useCas) ≠ SLABCLASS_INVALID_ID) :
    ∃ it',
      (item_get k (item_release_refcount R u)).1 = some R ∧
      heapGet (item_release_refcount R u).heap R = some it' ∧
      it'.key = k ∧ it'.vlen = v.length ∧ item_val it' = v ∧ it'.is_linked = true := by
  have hF : item_release_refcount R u =
      { u with
        heap := heapSet u.heap R ({ linkedSetItem k v e c useCas with refcount := 0 }),
        slabRef := u.slabRef - 1 } := by
    rw [item_release_refcount_eq u R _ hitL]
    simp
  have hitF : heapGet (item_release_refcount R u).heap R =
      some ({ linkedSetItem k v e c useCas with refcount := 0 }) := by
    rw [hF]
    exact heapGet_heapSet_self u.heap R _ _ hitL
  have htabF : assoc_get k (item_release_refcount R u).table = some R := by
    rw [(release_other_facts u R).1]
    exact htabu
  have hFnow : (item_release_refcount R u).now = u.now := (release_other_facts u R).2.1
  have hexpC : ¬(({ linkedSetItem k v e c useCas with refcount := 0 } : Item).exptime ≠ 0 ∧
      ({ linkedSetItem k v e c useCas with refcount := 0 } : Item).exptime ≤
        (item_release_refcount R u).now) := by
    have he : ({ linkedSetItem k v e c useCas with refcount := 0 } : Item).exptime = e := by
      simp
    rw [he, hFnow]
    exact hnowu
  refine ⟨_, ?_, hitF, by simp, by simp, ?_, by simp⟩
  · rw [item_get_eq_hit _ k R _ htabF hitF hexpC]
  · have hv : item_val ({ linkedSetItem k v e c useCas with refcount := 0 } : Item) =
        item_val (setItem k e v useCas) := by
      rw [item_val_update_refcount, item_val_linkedSetItem]
    rw [hv]
    exact item_val_setItem k v e useCas hid

/-- C1: after a successful `item_set k v e` from a well-referenced state,
an immediate `item_get k` (before `e` elapses) returns the new item, a
non-null item whose value bytes equal `v` and whose `vlen` is `v.length`. -/
theorem c1_set_then_get (s : State) (k v : List Nat) (e : Nat)
    (hexp : e = 0 ∨ s.now < e)
    (hid : slab_id (item_ntotal k.length v.length s.use_cas) ≠ SLABCLASS_INVALID_ID)
    (hfree : s.freeCount ≠ 0)
    (htabref : ∀ r, assoc_get k s.table = some r → r < s.nextRef) :
    (item_set k v e s).1 = ITEM_OK ∧
    ∃ it',
      (item_get k (item_set k v e s).2).1 = some s.nextRef ∧
      heapGet (item_set k v e s).2.heap s.nextRef = some it' ∧
      it'.key = k ∧ it'.vlen = v.length ∧ item_val it' = v ∧ it'.is_linked = true := by
  have hnotexp : ¬(e ≠ 0 ∧ e ≤ s.now) := by
    rcases hexp with h0 | hlt
    · intro hc; exact hc.1 h0
    · intro hc; omega
  have halloc := item_alloc_eq_success k e v.length s hid hfree
  have hs2 : heapModify s.nextRef
      (fun it => item_check_type { it with buf := writeBytes it.buf (item_data it) v })
      { s with heap := (s.nextRef, allocItem k e v.length s.use_cas) :: s.heap,
               freeCount := s.freeCount - 1, nextRef := s.nextRef + 1,
               slabRef := s.slabRef + 1, item_req := s.item_req + 1 } =
      { s with heap := (s.nextRef, setItem k e v s.use_cas) :: s.heap,
               freeCount := s.freeCount - 1, nextRef := s.nextRef + 1,
               slabRef := s.slabRef + 1, item_req := s.item_req + 1 } := by
    rw [heapModify_eq _ s.nextRef _ (allocItem k e v.length s.use_cas)
      (heapGet_cons_self _ _ _)]
    simp [setItem, item_data]
  have hsetEq := item_set_eq_alloc_ok k v e s s.nextRef _ halloc
  rw [hs2] at hsetEq
  have hR' : ∀ r, assoc_get k
      ({ s with heap := (s.nextRef, setItem k e v s.use_cas) :: s.heap,
                freeCount := s.freeCount - 1, nextRef := s.nextRef + 1,
                slabRef := s.slabRef + 1, item_req := s.item_req + 1 } : State).table =
      some r → r ≠ s.nextRef := by
    intro r hr
    exact Nat.ne_of_lt (htabref r hr)
  rcases hg : item_get k
      { s with heap := (s.nextRef, setItem k e v s.use_cas) :: s.heap,
               freeCount := s.freeCount - 1, nextRef := s.nextRef + 1,
               slabRef := s.slabRef + 1, item_req := s.item_req + 1 } with ⟨o, s3⟩
  rw [hg] at hsetEq
  have hpres := item_get_preserves k
      { s with heap := (s.nextRef, setItem k e v s.use_cas) :: s.heap,
               freeCount := s.freeCount - 1, nextRef := s.nextRef + 1,
               slabRef := s.slabRef + 1, item_req := s.item_req + 1 } s.nextRef hR'
  rw [hg] at hpres
  obtain ⟨hnow3, hnext3, hucas3, hheap3⟩ := hpres
  have hsetIt3 : heapGet s3.heap s.nextRef = some (setItem k e v s.use_cas) := by
    rw [hheap3]
    exact heapGet_cons_self _ _ _
  have hnow3' : s3.now = s.now := hnow3
  have hucas3' : s3.use_cas = s.use_cas := hucas3
  cases o with
  | none =>
      have hsetEq2 : item_set k v e s = (ITEM_OK,
          item_release_refcount s.nextRef (item_link s.nextRef s3)) := hsetEq
      rw [hsetEq2]
      refine ⟨rfl, ?_⟩
      have hlink := item_link_eq' s3 s.nextRef (setItem k e v s.use_cas) hsetIt3
      have hitL : heapGet (item_link s.nextRef s3).heap s.nextRef =
          some (linkedSetItem k v e (if s3.use_cas then s3.cas_id + 1 else 0) s.use_cas) := by
        rw [hlink]
        exact heapGet_heapSet_self _ _ _ _ hsetIt3
      have htabu : assoc_get k (item_link s.nextRef s3).table = some s.nextRef := by
        rw [hlink]
        show assoc_get k (assoc_put (setItem k e v s.use_cas).key s.nextRef s3.table) =
          some s.nextRef
        rw [setItem_key]
        exact assoc_get_put_self k s.nextRef s3.table
      have hnowu : ¬(e ≠ 0 ∧ e ≤ (item_link s.nextRef s3).now) := by
        rw [hlink]
        show ¬(e ≠ 0 ∧ e ≤ s3.now)
        rw [hnow3']
        exact hnotexp
      exact set_tail_facts (item_link s.nextRef s3) s.nextRef k v e _ s.use_cas
        hitL htabu hnowu hid
  | some rOld =>
      have htabOld : assoc_get k s.table = some rOld :=
        item_get_some_table k
          { s with heap := (s.nextRef, setItem k e v s.use_cas) :: s.heap,
                   freeCount := s.freeCount - 1, nextRef := s.nextRef + 1,
                   slabRef := s.slabRef + 1, item_req := s.item_req + 1 } rOld (by rw [hg])
      have hne : rOld ≠ s.nextRef := Nat.ne_of_lt (htabref rOld htabOld)
      have hsetEq2 : item_set k v e s = (ITEM_OK,
          item_release_refcount s.nextRef
            (item_release_refcount rOld
              (item_link s.nextRef (item_unlink rOld s3)))) := hsetEq
      rw [hsetEq2]
      refine ⟨rfl, ?_⟩
      have hu := unlink_other_facts s3 rOld
      have hsetIt1 : heapGet (item_unlink rOld s3).heap s.nextRef =
          some (setItem k e v s.use_cas) := by
        rw [hu.2.2.2.2 s.nextRef (Ne.symm hne)]
        exact hsetIt3
      have hlink := item_link_eq' (item_unlink rOld s3) s.nextRef
        (setItem k e v s.use_cas) hsetIt1
      have hitL1 : heapGet (item_link s.nextRef (item_unlink rOld s3)).heap s.nextRef =
          some (linkedSetItem k v e
            (if (item_unlink rOld s3).use_cas then (item_unlink rOld s3).cas_id + 1 else 0)
            s.use_cas) := by
        rw [hlink]
        exact heapGet_heapSet_self _ _ _ _ hsetIt1
      have hro := release_other_facts
        (item_link s.nextRef (item_unlink rOld s3)) rOld
      have hitL2 : heapGet (item_release_refcount rOld
          (item_link s.nextRef (item_unlink rOld s3))).heap s.nextRef =
          some (linkedSetItem k v e
            (if (item_unlink rOld s3).use_cas then (item_unlink rOld s3).cas_id + 1 else 0)
            s.use_cas) := by
        rw [hro.2.2.2.2 s.nextRef (Ne.symm hne)]
        exact hitL1
      have htabu : assoc_get k (item_release_refcount rOld
          (item_link s.nextRef (item_unlink rOld s3))).table = some s.nextRef := by
        rw [hro.1, hlink]
        show assoc_get k (assoc_put (setItem k e v s.use_cas).key s.nextRef
          (item_unlink rOld s3).table) = some s.nextRef
        rw [setItem_key]
        exact assoc_get_put_self k s.nextRef _
      have hnowu : ¬(e ≠ 0 ∧ e ≤ (item_release_refcount rOld
          (item_link s.nextRef (item_unlink rOld s3))).now) := by
        rw [hro.2.1, hlink]
        show ¬(e ≠ 0 ∧ e ≤ (item_unlink rOld s3).now)
        rw [hu.1, hnow3']
        exact hnotexp
      exact set_tail_facts _ s.nextRef k v e _ s.use_cas hitL2 htabu hnowu hid

@[simp] theorem item_get_cas_update_refcount (x : Item) (n : Nat) :
    item_get_cas { x with refcount := n } = item_get_cas x := rfl

/-- The fresh item `item_cas` builds before relinking: allocated, the
supplied token stored, value copied, type classified. -/
def casItem (k v : List Nat) (e tok : Nat) (useCas : Bool) : Item :=
  let it1 := item_set_cas (allocItem k e v.length useCas) tok
  item_check_type { it1 with buf := writeBytes it1.buf (item_data it1) v }

@[simp] theorem casItem_key (k v : List Nat) (e tok : Nat) (u : Bool) :
    (casItem k v e tok u).key = k := by simp [casItem]

@[simp] theorem casItem_refcount (k v : List Nat) (e tok : Nat) (u : Bool) :
    (casItem k v e tok u).refcount = 1 := by simp [casItem]

@[simp] theorem casItem_is_linked (k v : List Nat) (e tok : Nat) (u : Bool) :
    (casItem k v e tok u).is_linked = false := by simp [casItem]

@[simp] theorem casItem_has_cas (k v : List Nat) (e tok : Nat) (u : Bool) :
    (casItem k v e tok u).has_cas = u := by simp [casItem]

@[simp] theorem casItem_exptime (k v : List Nat) (e tok : Nat) (u : Bool) :
    (casItem k v e tok u).exptime = e := by simp [casItem]

/-- The `item_cas` replacement item as `_item_link` leaves it: linked bit
set and token `c` freshly stamped over the supplied one. -/
def linkedCasItem (k v : List Nat) (e tok c : Nat) (useCas : Bool) : Item :=
  item_set_cas { casItem k v e tok useCas with is_linked := true } c

@[simp] theorem linkedCasItem_refcount (k v : List Nat) (e tok c : Nat) (u : Bool) :
    (linkedCasItem k v e tok c u).refcount = 1 := by simp [linkedCasItem]

@[simp] theorem linkedCasItem_is_linked (k v : List Nat) (e tok c : Nat) (u : Bool) :
    (linkedCasItem k v e tok c u).is_linked = true := by simp [linkedCasItem]

theorem item_get_cas_linkedCasItem (k v : List Nat) (e tok c : Nat) (u : Bool)
    (hu : u = true) :
    item_get_cas (linkedCasItem k v e tok c u) = c := by
  unfold linkedCasItem
  rw [item_get_cas_set_cas]
  have hhc : ({ casItem k v e tok u with is_linked := true } : Item).has_cas = u := by
    simp
  rw [hhc, hu]
  simp

/-- `item_cas` after a hit with a matching token: only the allocation
outcome remains to be resolved. Note the alloc-failure arm returns
directly, skipping the `cas_done` releases. -/
theorem item_cas_eq_core (k v : List Nat) (e cas : Nat) (s : State) (rOld : Nat)
    (s1 : State) (oitA : Item)
    (hget : item_get k s = (some rOld, s1))
    (hit1 : heapGet s1.heap rOld = some oitA)
    (htok : cas = item_get_cas oitA) :
    item_cas k v e cas s =
      (match item_alloc k e v.length s1 with
       | (none, st, s2) => (st, s2)
       | (some r, _, s2) =>
           (ITEM_OK, item_release_refcount r
             (item_release_refcount rOld
               (item_relink rOld r (heapModify r (fun it =>
                  let it1 := item_set_cas it cas
                  item_check_type
                    { it1 with buf := writeBytes it1.buf (item_data it1) v }) s2))))) := by
  simp only [item_cas, hget, hit1]
  rw [if_neg (not_not_intro htok)]

/-- C10: when `item_cas` finds the key, the token matches, but the fresh
allocation fails (`ITEM_EOVERSIZED` or `ITEM_ENOMEM`), it returns without
running the `cas_done` releases, so the old item keeps the extra refcount
the internal get acquired. -/
theorem c10_cas_alloc_fail_leaks_refcount (s : State) (k v : List Nat) (e tok : Nat)
    (rOld : Nat) (oit : Item)
    (htab : assoc_get k s.table = some rOld)
    (hit : heapGet s.heap rOld = some oit)
    (hexp : ¬(oit.exptime ≠ 0 ∧ oit.exptime ≤ s.now))
    (htok : tok = item_get_cas oit)
    (hfail : slab_id (item_ntotal k.length v.length s.use_cas) = SLABCLASS_INVALID_ID ∨
      s.freeCount = 0) :
    ((item_cas k v e tok s).1 = ITEM_EOVERSIZED ∨ (item_cas k v e tok s).1 = ITEM_ENOMEM) ∧
    heapGet (item_cas k v e tok s).2.heap rOld =
      some { oit with refcount := oit.refcount + 1 } := by
  have hget := item_get_eq_hit s k rOld oit htab hit hexp
  rw [item_acquire_refcount_eq s rOld oit hit] at hget
  have hit1 : heapGet (heapSet s.heap rOld { oit with refcount := oit.refcount + 1 }) rOld =
      some { oit with refcount := oit.refcount + 1 } :=
    heapGet_heapSet_self s.heap rOld oit _ hit
  have hcore := item_cas_eq_core k v e tok s rOld
    { s with heap := heapSet s.heap rOld { oit with refcount := oit.refcount + 1 },
             slabRef := s.slabRef + 1 }
    { oit with refcount := oit.refcount + 1 } hget hit1 htok
  rcases hfail with hbad | hmem
  · have halloc := item_alloc_eq_oversized k e v.length
      { s with heap := heapSet s.heap rOld { oit with refcount := oit.refcount + 1 },
               slabRef := s.slabRef + 1 } hbad
    rw [halloc] at hcore
    have hcore2 : item_cas k v e tok s = (ITEM_EOVERSIZED,
        { s with heap := heapSet s.heap rOld { oit with refcount := oit.refcount + 1 },
                 slabRef := s.slabRef + 1 }) := hcore
    rw [hcore2]
    exact ⟨Or.inl rfl, hit1⟩
  · by_cases hbad2 : slab_id (item_ntotal k.length v.length s.use_cas) = SLABCLASS_INVALID_ID
    · have halloc := item_alloc_eq_oversized k e v.length
        { s with heap := heapSet s.heap rOld { oit with refcount := oit.refcount + 1 },
                 slabRef := s.slabRef + 1 } hbad2
      rw [halloc] at hcore
      have hcore2 : item_cas k v e tok s = (ITEM_EOVERSIZED,
          { s with heap := heapSet s.heap rOld { oit with refcount := oit.refcount + 1 },
                   slabRef := s.slabRef + 1 }) := hcore
      rw [hcore2]
      exact ⟨Or.inl rfl, hit1⟩
    · have halloc := item_alloc_eq_nomem k e v.length
        { s with heap := heapSet s.heap rOld { oit with refcount := oit.refcount + 1 },
                 slabRef := s.slabRef + 1 } hbad2 hmem
      rw [halloc] at hcore
      have hcore2 : item_cas k v e tok s = (ITEM_ENOMEM,
          { s with heap := heapSet s.heap rOld { oit with refcount := oit.refcount + 1 },
                   slabRef := s.slabRef + 1, item_req_ex := s.item_req_ex + 1 }) := hcore
      rw [hcore2]
      exact ⟨Or.inr rfl, hit1⟩

@[simp] theorem readBytes_zero (b : List Nat) (n : Nat) :
    readBytes b 0 n = b.take n := by
  unfold readBytes
  rw [List.drop_zero]

theorem length_readBytes (b : List Nat) (off len : Nat) :
    (readBytes b off len).length = min len (b.length - off) := by
  unfold readBytes
  rw [List.length_take, List.length_drop]

/-- Reading the whole value region after an in-place append: the old
prefix followed by the appended bytes. -/
theorem readBytes_zero_concat (b src : List Nat) (off : Nat)
    (h : off + src.length ≤ b.length) :
    readBytes (writeBytes b off src) 0 (off + src.length) = b.take off ++ src := by
  unfold readBytes writeBytes
  rw [List.drop_zero, List.append_assoc, List.take_append_eq_append_take]
  have h1 : (b.take off).length = off := by
    rw [List.length_take]
    omega
  rw [List.take_all_of_le (by rw [h1]; omega), h1, List.take_append_eq_append_take]
  rw [List.take_all_of_le (by omega : src.length ≤ off + src.length - off)]
  have h2 : off + src.length - off - src.length = 0 := by omega
  rw [h2, List.take_zero, List.append_nil]

/-- Reading the whole (right-aligned) value region after an in-place
prepend: the prepended bytes followed by the old right-aligned value. -/
theorem readBytes_prepend_write (b src : List Nat) (cap vv : Nat)
    (hb : b.length = cap) (hfit : vv + src.length ≤ cap) :
    readBytes (writeBytes b ((cap - vv) - src.length) src)
      (cap - (vv + src.length)) (vv + src.length) =
      src ++ readBytes b (cap - vv) vv := by
  have hcomm : vv + src.length = src.length + vv := by omega
  rw [hcomm]
  have hoff : (cap - vv) - src.length = cap - (src.length + vv) := by omega
  rw [hoff]
  rw [readBytes_writeBytes_extend b src (cap - (src.length + vv)) vv (by omega)]
  have h3 : cap - (src.length + vv) + src.length = cap - vv := by omega
  rw [h3]

/-- Reading the tail region after the two copies of the slow prepend path
(old value right-aligned after the new prefix) on a fresh zeroed chunk. -/
theorem readBytes_prepend_slow (cap : Nat) (old src : List Nat)
    (hfit : old.length + src.length ≤ cap) :
    readBytes
      (writeBytes (writeBytes (List.replicate cap 0)
        ((cap - (old.length + src.length)) + src.length) old)
        (cap - (old.length + src.length)) src)
      (cap - (old.length + src.length)) (old.length + src.length) =
      src ++ old := by
  have hcomm : old.length + src.length = src.length + old.length := by omega
  rw [hcomm]
  have hlen1 : (writeBytes (List.replicate cap 0)
      ((cap - (src.length + old.length)) + src.length) old).length = cap := by
    rw [length_writeBytes _ _ _ (by rw [List.length_replicate]; omega),
      List.length_replicate]
  rw [readBytes_writeBytes_extend _ src (cap - (src.length + old.length)) old.length
    (by rw [hlen1]; omega)]
  congr 1
  exact readBytes_writeBytes _ old _ (by rw [List.length_replicate]; omega)

/-- The old item after the in-place append: bytes copied to the end of
the value, `vlen` grown, CAS restamped, type reclassified. -/
def appendFastItem (oit : Item) (v : List Nat) (c : Nat) : Item :=
  item_check_type (item_set_cas
    { oit with
      buf := writeBytes oit.buf (item_data oit + oit.vlen) v,
      vlen := oit.vlen + v.length } c)

@[simp] theorem appendFastItem_refcount (oit : Item) (v : List Nat) (c : Nat) :
    (appendFastItem oit v c).refcount = oit.refcount := by simp [appendFastItem]

@[simp] theorem appendFastItem_is_linked (oit : Item) (v : List Nat) (c : Nat) :
    (appendFastItem oit v c).is_linked = oit.is_linked := by simp [appendFastItem]

@[simp] theorem appendFastItem_vlen (oit : Item) (v : List Nat) (c : Nat) :
    (appendFastItem oit v c).vlen = oit.vlen + v.length := by simp [appendFastItem]

@[simp] theorem appendFastItem_is_raligned (oit : Item) (v : List Nat) (c : Nat) :
    (appendFastItem oit v c).is_raligned = oit.is_raligned := by simp [appendFastItem]

@[simp] theorem appendFastItem_exptime (oit : Item) (v : List Nat) (c : Nat) :
    (appendFastItem oit v c).exptime = oit.exptime := by simp [appendFastItem]

@[simp] theorem item_get_cas_appendFastItem (oit : Item) (v : List Nat) (c : Nat) :
    item_get_cas (appendFastItem oit v c) =
      if oit.has_cas then c else item_get_cas oit := by
  unfold appendFastItem item_get_cas item_set_cas item_check_type
  by_cases h : oit.has_cas <;> simp [h] <;> split <;> simp [h]

theorem item_val_appendFastItem (oit : Item) (v : List Nat) (c : Nat)
    (hral : oit.is_raligned = false)
    (hbuf : oit.buf.length = dataCap oit)
    (hfit : oit.vlen + v.length ≤ dataCap oit) :
    item_val (appendFastItem oit v c) = item_val oit ++ v := by
  have hd : item_data oit = 0 := by simp [item_data, hral]
  unfold appendFastItem
  rw [item_val_check_type, item_val_set_cas]
  show readBytes (writeBytes oit.buf (item_data oit + oit.vlen) v)
    (item_data { oit with
      buf := writeBytes oit.buf (item_data oit + oit.vlen) v,
      vlen := oit.vlen + v.length }) (oit.vlen + v.length) = item_val oit ++ v
  have hd2 : item_data ({ oit with
      buf := writeBytes oit.buf (item_data oit + oit.vlen) v,
      vlen := oit.vlen + v.length } : Item) = 0 := by
    simp [item_data, hral]
  rw [hd2, hd, Nat.zero_add, readBytes_zero]
  have hconc := readBytes_zero_concat oit.buf v oit.vlen (by omega)
  rw [readBytes_zero] at hconc
  rw [hconc]
  unfold item_val
  rw [hd, readBytes_zero]

/-- The old item after the in-place prepend: bytes copied in front of the
right-aligned value, `vlen` grown, type reclassified, CAS restamped. -/
def prependFastItem (oit : Item) (v : List Nat) (c : Nat) : Item :=
  item_set_cas (item_check_type
    { oit with
      buf := writeBytes oit.buf (item_data oit - v.length) v,
      vlen := oit.vlen + v.length }) c

@[simp] theorem prependFastItem_refcount (oit : Item) (v : List Nat) (c : Nat) :
    (prependFastItem oit v c).refcount = oit.refcount := by simp [prependFastItem]

@[simp] theorem prependFastItem_is_linked (oit : Item) (v : List Nat) (c : Nat) :
    (prependFastItem oit v c).is_linked = oit.is_linked := by simp [prependFastItem]

@[simp] theorem prependFastItem_vlen (oit : Item) (v : List Nat) (c : Nat) :
    (prependFastItem oit v c).vlen = oit.vlen + v.length := by simp [prependFastItem]

@[simp] theorem prependFastItem_is_raligned (oit : Item) (v : List Nat) (c : Nat) :
    (prependFastItem oit v c).is_raligned = oit.is_raligned := by simp [prependFastItem]

@[simp] theorem prependFastItem_exptime (oit : Item) (v : List Nat) (c : Nat) :
    (prependFastItem oit v c).exptime = oit.exptime := by simp [prependFastItem]

@[simp] theorem prependFastItem_klen (oit : Item) (v : List Nat) (c : Nat) :
    (prependFastItem oit v c).klen = oit.klen := by simp [prependFastItem]

@[simp] theorem prependFastItem_has_cas (oit : Item) (v : List Nat) (c : Nat) :
    (prependFastItem oit v c).has_cas = oit.has_cas := by simp [prependFastItem]

@[simp] theorem prependFastItem_id (oit : Item) (v : List Nat) (c : Nat) :
    (prependFastItem oit v c).id = oit.id := by simp [prependFastItem]

@[simp] theorem item_get_cas_prependFastItem (oit : Item) (v : List Nat) (c : Nat) :
    item_get_cas (prependFastItem oit v c) =
      if oit.has_cas then c else item_get_cas oit := by
  unfold prependFastItem item_get_cas item_set_cas item_check_type
  by_cases h : oit.has_cas <;> simp [h] <;> split <;> simp [h]

theorem item_val_prependFastItem (oit : Item) (v : List Nat) (c : Nat)
    (hral : oit.is_raligned = true)
    (hbuf : oit.buf.length = dataCap oit)
    (hfit : oit.vlen + v.length ≤ dataCap oit) :
    item_val (prependFastItem oit v c) = v ++ item_val oit := by
  have hd : item_data oit = dataCap oit - oit.vlen := by simp [item_data, hral]
  unfold prependFastItem
  rw [item_val_set_cas, item_val_check_type]
  show readBytes (writeBytes oit.buf (item_data oit - v.length) v)
    (item_data { oit with
      buf := writeBytes oit.buf (item_data oit - v.length) v,
      vlen := oit.vlen + v.length }) (oit.vlen + v.length) = v ++ item_val oit
  have hd2 : item_data ({ oit with
      buf := writeBytes oit.buf (item_data oit - v.length) v,
      vlen := oit.vlen + v.length } : Item) =
      dataCap oit - (oit.vlen + v.length) := by
    simp [item_data, dataCap, hral]
  rw [hd2, hd]
  have := readBytes_prepend_write oit.buf v (dataCap oit) oit.vlen hbuf hfit
  rw [this]
  unfold item_val
  rw [hd]

/-- `item_annex` on an append-fast-path hit. -/
theorem item_annex_eq_append_fast (k v : List Nat) (s : State) (r : Nat)
    (s1 : State) (oitA : Item)
    (hget : item_get k s = (some r, s1))
    (hit1 : heapGet s1.heap r = some oitA)
    (hinv : item_slabid s1.use_cas k.length (oitA.vlen + v.length) ≠ SLABCLASS_INVALID_ID)
    (hfast : item_slabid s1.use_cas k.length (oitA.vlen + v.length) = oitA.id ∧
      oitA.is_raligned = false) :
    item_annex k v true s =
      (ITEM_OK, item_release_refcount r
        { (item_next_cas s1).2 with
          heap := heapSet (item_next_cas s1).2.heap r
            (appendFastItem oitA v (item_next_cas s1).1) }) := by
  simp only [item_annex, hget, hit1]
  rw [if_neg hinv, if_pos trivial, if_pos hfast]
  rfl

/-- `item_annex` on a prepend-fast-path hit. -/
theorem item_annex_eq_prepend_fast (k v : List Nat) (s : State) (r : Nat)
    (s1 : State) (oitA : Item)
    (hget : item_get k s = (some r, s1))
    (hit1 : heapGet s1.heap r = some oitA)
    (hinv : item_slabid s1.use_cas k.length (oitA.vlen + v.length) ≠ SLABCLASS_INVALID_ID)
    (hfast : item_slabid s1.use_cas k.length (oitA.vlen + v.length) = oitA.id ∧
      oitA.is_raligned = true) :
    item_annex k v false s =
      (ITEM_OK, item_release_refcount r
        { (item_next_cas s1).2 with
          heap := heapSet (item_next_cas s1).2.heap r
            (prependFastItem oitA v (item_next_cas s1).1) }) := by
  simp only [item_annex, hget, hit1]
  rw [if_neg hinv, if_neg Bool.false_ne_true, if_pos hfast]
  rfl

/-- `item_annex` on a prepend that misses the fast path, with a
successful allocation: the slow path builds a right-aligned item and
relinks it. -/
theorem item_annex_eq_prepend_slow (k v : List Nat) (s : State) (r : Nat)
    (s1 : State) (oitA : Item)
    (hget : item_get k s = (some r, s1))
    (hit1 : heapGet s1.heap r = some oitA)
    (hinv : item_slabid s1.use_cas k.length (oitA.vlen + v.length) ≠ SLABCLASS_INVALID_ID)
    (hslow : ¬(item_slabid s1.use_cas k.length (oitA.vlen + v.length) = oitA.id ∧
      oitA.is_raligned = true)) :
    item_annex k v false s =
      (match item_alloc k oitA.exptime (oitA.vlen + v.length) s1 with
       | (none, st, s2) => (st, item_release_refcount r s2)
       | (some rN, _, s2) =>
           (ITEM_OK, item_release_refcount rN
             (item_release_refcount r
               (item_relink r rN (heapModify rN (fun nit =>
                  let nit1 := { nit with is_raligned := true }
                  let nit2 := { nit1 with
                    buf := writeBytes nit1.buf (item_data nit1 + v.length) (item_val oitA) }
                  let nit3 := { nit2 with
                    buf := writeBytes nit2.buf (item_data nit2) v }
                  item_check_type nit3) s2))))) := by
  simp only [item_annex, hget, hit1]
  rw [if_neg hinv, if_neg Bool.false_ne_true, if_neg hslow]

theorem length_item_val (it : Item) (hbuf : it.buf.length = dataCap it)
    (hv : it.vlen ≤ dataCap it) :
    (item_val it).length = it.vlen := by
  unfold item_val item_data
  rw [length_readBytes, hbuf]
  split <;> omega

/-- The right-aligned item the prepend slow path builds in the fresh
chunk: `is_raligned` set, the old value copied right-aligned, the new
prefix copied just before it, type reclassified. -/
def prepItem (k v old : List Nat) (e total : Nat) (useCas : Bool) : Item :=
  let nit := allocItem k e total useCas
  let nit1 := { nit with is_raligned := true }
  let nit2 := { nit1 with buf := writeBytes nit1.buf (item_data nit1 + v.length) old }
  let nit3 := { nit2 with buf := writeBytes nit2.buf (item_data nit2) v }
  item_check_type nit3

@[simp] theorem prepItem_refcount (k v old : List Nat) (e tot : Nat) (u : Bool) :
    (prepItem k v old e tot u).refcount = 1 := by simp [prepItem]

@[simp] theorem prepItem_is_linked (k v old : List Nat) (e tot : Nat) (u : Bool) :
    (prepItem k v old e tot u).is_linked = false := by simp [prepItem]

@[simp] theorem prepItem_key (k v old : List Nat) (e tot : Nat) (u : Bool) :
    (prepItem k v old e tot u).key = k := by simp [prepItem]

@[simp] theorem prepItem_klen (k v old : List Nat) (e tot : Nat) (u : Bool) :
    (prepItem k v old e tot u).klen = k.length := by simp [prepItem]

@[simp] theorem prepItem_vlen (k v old : List Nat) (e tot : Nat) (u : Bool) :
    (prepItem k v old e tot u).vlen = tot := by simp [prepItem]

@[simp] theorem prepItem_exptime (k v old : List Nat) (e tot : Nat) (u : Bool) :
    (prepItem k v old e tot u).exptime = e := by simp [prepItem]

@[simp] theorem prepItem_id (k v old : List Nat) (e tot : Nat) (u : Bool) :
    (prepItem k v old e tot u).id = slab_id (item_ntotal k.length tot u) := by
  simp [prepItem]

@[simp] theorem prepItem_has_cas (k v old : List Nat) (e tot : Nat) (u : Bool) :
    (prepItem k v old e tot u).has_cas = u := by simp [prepItem]

@[simp] theorem prepItem_is_raligned (k v old : List Nat) (e tot : Nat) (u : Bool) :
    (prepItem k v old e tot u).is_raligned = true := by simp [prepItem]

theorem prepItem_buf_length (k v old : List Nat) (e vv : Nat) (u : Bool)
    (hold : old.length = vv)
    (hid : slab_id (item_ntotal k.length (vv + v.length) u) ≠ SLABCLASS_INVALID_ID) :
    (prepItem k v old e (vv + v.length) u).buf.length =
      dataCap (prepItem k v old e (vv + v.length) u) := by
  subst hold
  set cap := slab_item_size (slab_id (item_ntotal k.length (old.length + v.length) u)) -
    ITEM_HDR_SIZE - (if u then 8 else 0) - k.length with hcapd
  have hfitc : old.length + v.length ≤ cap := by
    have hf := (slab_id_fits _ hid).2.2
    have h2 : item_ntotal k.length (old.length + v.length) u =
        ITEM_HDR_SIZE + (if u then 8 else 0) + k.length + (old.length + v.length) := rfl
    rw [hcapd]
    omega
  have hunfold : prepItem k v old e (old.length + v.length) u =
      item_check_type
        { allocItem k e (old.length + v.length) u with
          is_raligned := true,
          buf := writeBytes (writeBytes (List.replicate cap 0)
            ((cap - (old.length + v.length)) + v.length) old)
            (cap - (old.length + v.length)) v } := rfl
  have hlen1 : (writeBytes (List.replicate cap (0 : Nat))
      ((cap - (old.length + v.length)) + v.length) old).length = cap := by
    rw [length_writeBytes _ _ _ (by rw [List.length_replicate]; omega), List.length_replicate]
  rw [hunfold, check_type_buf, dataCap_check_type]
  show (writeBytes (writeBytes (List.replicate cap 0)
      ((cap - (old.length + v.length)) + v.length) old)
      (cap - (old.length + v.length)) v).length = cap
  rw [length_writeBytes _ _ _ (by rw [hlen1]; omega), hlen1]

theorem item_val_prepItem (k v old : List Nat) (e vv : Nat) (u : Bool)
    (hold : old.length = vv)
    (hid : slab_id (item_ntotal k.length (vv + v.length) u) ≠ SLABCLASS_INVALID_ID) :
    item_val (prepItem k v old e (vv + v.length) u) = v ++ old := by
  subst hold
  set cap := slab_item_size (slab_id (item_ntotal k.length (old.length + v.length) u)) -
    ITEM_HDR_SIZE - (if u then 8 else 0) - k.length with hcapd
  have hfitc : old.length + v.length ≤ cap := by
    have hf := (slab_id_fits _ hid).2.2
    have h2 : item_ntotal k.length (old.length + v.length) u =
        ITEM_HDR_SIZE + (if u then 8 else 0) + k.length + (old.length + v.length) := rfl
    rw [hcapd]
    omega
  have hunfold : prepItem k v old e (old.length + v.length) u =
      item_check_type
        { allocItem k e (old.length + v.length) u with
          is_raligned := true,
          buf := writeBytes (writeBytes (List.replicate cap 0)
            ((cap - (old.length + v.length)) + v.length) old)
            (cap - (old.length + v.length)) v } := rfl
  rw [hunfold, item_val_check_type]
  show readBytes
      (writeBytes (writeBytes (List.replicate cap 0)
        ((cap - (old.length + v.length)) + v.length) old)
        (cap - (old.length + v.length)) v)
      (cap - (old.length + v.length)) (old.length + v.length) = v ++ old
  exact readBytes_prepend_slow cap old v hfitc

/-- C5: an `item_annex` append on a linked, unexpired, left-aligned item
whose grown value still fits its slab class appends in place: no
allocation, no relink, the same reference stays linked with value
`old ++ v`, `vlen` grown, and the CAS token freshly generated. -/
theorem c5_annex_append_fast (s : State) (k v : List Nat) (r : Nat) (oit : Item)
    (htab : assoc_get k s.table = some r)
    (hit : heapGet s.heap r = some oit)
    (hexp : ¬(oit.exptime ≠ 0 ∧ oit.exptime ≤ s.now))
    (hlinked : oit.is_linked = true)
    (hklen : oit.klen = k.length)
    (hcas : oit.has_cas = s.use_cas)
    (hbuf : oit.buf.length = dataCap oit)
    (hmax : oit.id ≤ SLABCLASS_MAX_ID)
    (hslab : item_slabid s.use_cas k.length (oit.vlen + v.length) = oit.id)
    (hral : oit.is_raligned = false) :
    (item_annex k v true s).1 = ITEM_OK ∧
    (item_annex k v true s).2.table = s.table ∧
    (item_annex k v true s).2.nextRef = s.nextRef ∧
    (item_annex k v true s).2.freeCount = s.freeCount ∧
    (item_annex k v true s).2.item_link = s.item_link ∧
    (item_annex k v true s).2.item_unlink = s.item_unlink ∧
    ∃ it',
      heapGet (item_annex k v true s).2.heap r = some it' ∧
      it'.is_linked = true ∧
      it'.vlen = oit.vlen + v.length ∧
      item_val it' = item_val oit ++ v ∧
      it'.is_raligned = false ∧
      item_get_cas it' = (if s.use_cas then s.cas_id + 1 else 0) := by
  have hfit : oit.vlen + v.length ≤ dataCap oit :=
    vlen_le_dataCap s.use_cas oit (oit.vlen + v.length) hcas (by rw [hklen]; exact hslab) hmax
  have hinv : item_slabid s.use_cas k.length (oit.vlen + v.length) ≠ SLABCLASS_INVALID_ID := by
    rw [hslab]
    unfold SLABCLASS_MAX_ID SLABCLASS_INVALID_ID at *
    omega
  have hget := item_get_eq_hit s k r oit htab hit hexp
  rw [item_acquire_refcount_eq s r oit hit] at hget
  set oitA : Item := { oit with refcount := oit.refcount + 1 } with hoitA
  set S1 : State := { s with heap := heapSet s.heap r oitA, slabRef := s.slabRef + 1 } with hS1
  have hit1 : heapGet S1.heap r = some oitA := by
    rw [hS1]
    exact heapGet_heapSet_self s.heap r oit oitA hit
  have hSuse : S1.use_cas = s.use_cas := by rw [hS1]
  have hScas : S1.cas_id = s.cas_id := by rw [hS1]
  have hAvlen : oitA.vlen = oit.vlen := by rw [hoitA]
  have hAid : oitA.id = oit.id := by rw [hoitA]
  have hAral : oitA.is_raligned = false := hral
  have hAcas : oitA.has_cas = s.use_cas := hcas
  have hinv' : item_slabid S1.use_cas k.length (oitA.vlen + v.length) ≠
      SLABCLASS_INVALID_ID := by
    rw [hSuse, hAvlen]
    exact hinv
  have hfast' : item_slabid S1.use_cas k.length (oitA.vlen + v.length) = oitA.id ∧
      oitA.is_raligned = false := by
    refine ⟨?_, hAral⟩
    rw [hSuse, hAvlen, hAid]
    exact hslab
  have happly := item_annex_eq_append_fast k v s r S1 oitA hget hit1 hinv' hfast'
  set c : Nat := (item_next_cas S1).1 with hc
  set S3 : State := { (item_next_cas S1).2 with
    heap := heapSet (item_next_cas S1).2.heap r (appendFastItem oitA v c) } with hS3
  have hstored : heapGet S3.heap r = some (appendFastItem oitA v c) := by
    rw [hS3]
    show heapGet (heapSet (item_next_cas S1).2.heap r (appendFastItem oitA v c)) r = _
    rw [next_cas_heap]
    exact heapGet_heapSet_self S1.heap r oitA _ hit1
  have hstored_rc : (appendFastItem oitA v c).refcount = oit.refcount + 1 := by
    rw [appendFastItem_refcount]
  have hstored_linked : (appendFastItem oitA v c).is_linked = true := by
    rw [appendFastItem_is_linked]
    exact hlinked
  have hrel : item_release_refcount r S3 =
      { S3 with
        heap := heapSet S3.heap r ({ appendFastItem oitA v c with refcount := oit.refcount }),
        slabRef := S3.slabRef - 1 } := by
    rw [item_release_refcount_eq S3 r _ hstored]
    simp [hstored_rc, hstored_linked, hlinked]
  rw [happly, hrel]
  refine ⟨rfl, ?_, ?_, ?_, ?_, ?_, ?_⟩
  · rw [hS3]
    show (item_next_cas S1).2.table = s.table
    rw [next_cas_table, hS1]
  · rw [hS3]
    show (item_next_cas S1).2.nextRef = s.nextRef
    rw [next_cas_nextRef, hS1]
  · rw [hS3]
    show (item_next_cas S1).2.freeCount = s.freeCount
    rw [next_cas_freeCount, hS1]
  · rw [hS3]
    show (item_next_cas S1).2.item_link = s.item_link
    rw [next_cas_item_link, hS1]
  · rw [hS3]
    show (item_next_cas S1).2.item_unlink = s.item_unlink
    rw [next_cas_item_unlink, hS1]
  · refine ⟨{ appendFastItem oitA v c with refcount := oit.refcount }, ?_, ?_, ?_, ?_, ?_, ?_⟩
    · show heapGet (heapSet S3.heap r ({ appendFastItem oitA v c with
        refcount := oit.refcount })) r = _
      exact heapGet_heapSet_self S3.heap r _ _ hstored
    · exact hstored_linked
    · show (appendFastItem oitA v c).vlen = oit.vlen + v.length
      rw [appendFastItem_vlen, hAvlen]
    · show item_val ({ appendFastItem oitA v c with refcount := oit.refcount } : Item) =
        item_val oit ++ v
      rw [item_val_update_refcount]
      have hv := item_val_appendFastItem oitA v c hAral hbuf hfit
      rw [hv]
      show item_val oitA ++ v = item_val oit ++ v
      rfl
    · show (appendFastItem oitA v c).is_raligned = false
      rw [appendFastItem_is_raligned]
      exact hAral
    · show item_get_cas ({ appendFastItem oitA v c with refcount := oit.refcount } : Item) =
        if s.use_cas then s.cas_id + 1 else 0
      rw [item_get_cas_update_refcount, item_get_cas_appendFastItem, hAcas, hc, next_cas_fst,
        hSuse, hScas]
      by_cases hu : s.use_cas
      · simp [hu]
      · simp [hu, item_get_cas, hcas]

/-- Prepend counterpart of the append fast path: an `item_annex` prepend
on a linked, unexpired, right-aligned item whose grown value still fits
its slab class copies in place, the same reference staying linked with
value `v ++ old`. -/
theorem annex_prepend_fast_facts (s : State) (k v : List Nat) (r : Nat) (oit : Item)
    (htab : assoc_get k s.table = some r)
    (hit : heapGet s.heap r = some oit)
    (hexp : ¬(oit.exptime ≠ 0 ∧ oit.exptime ≤ s.now))
    (hlinked : oit.is_linked = true)
    (hklen : oit.klen = k.length)
    (hcas : oit.has_cas = s.use_cas)
    (hbuf : oit.buf.length = dataCap oit)
    (hmax : oit.id ≤ SLABCLASS_MAX_ID)
    (hslab : item_slabid s.use_cas k.length (oit.vlen + v.length) = oit.id)
    (hral : oit.is_raligned = true) :
    (item_annex k v false s).1 = ITEM_OK ∧
    (item_annex k v false s).2.table = s.table ∧
    (item_annex k v false s).2.nextRef = s.nextRef ∧
    (item_annex k v false s).2.freeCount = s.freeCount ∧
    (item_annex k v false s).2.item_link = s.item_link ∧
    (item_annex k v false s).2.item_unlink = s.item_unlink ∧
    ∃ it',
      heapGet (item_annex k v false s).2.heap r = some it' ∧
      it'.is_linked = true ∧
      it'.vlen = oit.vlen + v.length ∧
      item_val it' = v ++ item_val oit ∧
      it'.is_raligned = true ∧
      item_get_cas it' = (if s.use_cas then s.cas_id + 1 else 0) := by
  have hfit : oit.vlen + v.length ≤ dataCap oit :=
    vlen_le_dataCap s.use_cas oit (oit.vlen + v.length) hcas (by rw [hklen]; exact hslab) hmax
  have hinv : item_slabid s.use_cas k.length (oit.vlen + v.length) ≠ SLABCLASS_INVALID_ID := by
    rw [hslab]
    unfold SLABCLASS_MAX_ID SLABCLASS_INVALID_ID at *
    omega
  have hget := item_get_eq_hit s k r oit htab hit hexp
  rw [item_acquire_refcount_eq s r oit hit] at hget
  set oitA : Item := { oit with refcount := oit.refcount + 1 } with hoitA
  set S1 : State := { s with heap := heapSet s.heap r oitA, slabRef := s.slabRef + 1 } with hS1
  have hit1 : heapGet S1.heap r = some oitA := by
    rw [hS1]
    exact heapGet_heapSet_self s.heap r oit oitA hit
  have hSuse : S1.use_cas = s.use_cas := by rw [hS1]
  have hScas : S1.cas_id = s.cas_id := by rw [hS1]
  have hAvlen : oitA.vlen = oit.vlen := by rw [hoitA]
  have hAid : oitA.id = oit.id := by rw [hoitA]
  have hAral : oitA.is_raligned = true := hral
  have hAcas : oitA.has_cas = s.use_cas := hcas
  have hinv' : item_slabid S1.use_cas k.length (oitA.vlen + v.length) ≠
      SLABCLASS_INVALID_ID := by
    rw [hSuse, hAvlen]
    exact hinv
  have hfast' : item_slabid S1.use_cas k.length (oitA.vlen + v.length) = oitA.id ∧
      oitA.is_raligned = true := by
    refine ⟨?_, hAral⟩
    rw [hSuse, hAvlen, hAid]
    exact hslab
  have happly := item_annex_eq_prepend_fast k v s r S1 oitA hget hit1 hinv' hfast'
  set c : Nat := (item_next_cas S1).1 with hc
  set S3 : State := { (item_next_cas S1).2 with
    heap := heapSet (item_next_cas S1).2.heap r (prependFastItem oitA v c) } with hS3
  have hstored : heapGet S3.heap r = some (prependFastItem oitA v c) := by
    rw [hS3]
    show heapGet (heapSet (item_next_cas S1).2.heap r (prependFastItem oitA v c)) r = _
    rw [next_cas_heap]
    exact heapGet_heapSet_self S1.heap r oitA _ hit1
  have hstored_rc : (prependFastItem oitA v c).refcount = oit.refcount + 1 := by
    rw [prependFastItem_refcount]
  have hstored_linked : (prependFastItem oitA v c).is_linked = true := by
    rw [prependFastItem_is_linked]
    exact hlinked
  have hrel : item_release_refcount r S3 =
      { S3 with
        heap := heapSet S3.heap r ({ prependFastItem oitA v c with refcount := oit.refcount }),
        slabRef := S3.slabRef - 1 } := by
    rw [item_release_refcount_eq S3 r _ hstored]
    simp [hstored_rc, hstored_linked, hlinked]
  rw [happly, hrel]
  refine ⟨rfl, ?_, ?_, ?_, ?_, ?_, ?_⟩
  · rw [hS3]
    show (item_next_cas S1).2.table = s.table
    rw [next_cas_table, hS1]
  · rw [hS3]
    show (item_next_cas S1).2.nextRef = s.nextRef
    rw [next_cas_nextRef, hS1]
  · rw [hS3]
    show (item_next_cas S1).2.freeCount = s.freeCount
    rw [next_cas_freeCount, hS1]
  · rw [hS3]
    show (item_next_cas S1).2.item_link = s.item_link
    rw [next_cas_item_link, hS1]
  · rw [hS3]
    show (item_next_cas S1).2.item_unlink = s.item_unlink
    rw [next_cas_item_unlink, hS1]
  · refine ⟨{ prependFastItem oitA v c with refcount := oit.refcount }, ?_, ?_, ?_, ?_, ?_, ?_⟩
    · show heapGet (heapSet S3.heap r ({ prependFastItem oitA v c with
        refcount := oit.refcount })) r = _
      exact heapGet_heapSet_self S3.heap r _ _ hstored
    · exact hstored_linked
    · show (prependFastItem oitA v c).vlen = oit.vlen + v.length
      rw [prependFastItem_vlen, hAvlen]
    · show item_val ({ prependFastItem oitA v c with refcount := oit.refcount } : Item) =
        v ++ item_val oit
      rw [item_val_update_refcount]
      have hv := item_val_prependFastItem oitA v c hAral hbuf hfit
      rw [hv]
      show v ++ item_val oitA = v ++ item_val oit
      rfl
    · show (prependFastItem oitA v c).is_raligned = true
      rw [prependFastItem_is_raligned]
      exact hAral
    · show item_get_cas ({ prependFastItem oitA v c with refcount := oit.refcount } : Item) =
        if s.use_cas then s.cas_id + 1 else 0
      rw [item_get_cas_update_refcount, item_get_cas_prependFastItem, hAcas, hc, next_cas_fst,
        hSuse, hScas]
      by_cases hu : s.use_cas
      · simp [hu]
      · simp [hu, item_get_cas, hcas]

/-- C2 (amended): on a successful `item_cas` (key present, token equal to
the stored token, allocation succeeds, CAS enabled) the newly linked
item's stored CAS token is a freshly generated counter value `cas_id + 1`
— `_item_link` overwrites the supplied token `item_cas` stored — and so
differs from the supplied token whenever that token is bounded by the
current counter. -/
theorem c2_cas_token_freshly_generated (s : State) (k v : List Nat) (e tok : Nat)
    (rOld : Nat) (oit : Item)
    (htab : assoc_get k s.table = some rOld)
    (hit : heapGet s.heap rOld = some oit)
    (hexp : ¬(oit.exptime ≠ 0 ∧ oit.exptime ≤ s.now))
    (htok : tok = item_get_cas oit)
    (hid : slab_id (item_ntotal k.length v.length s.use_cas) ≠ SLABCLASS_INVALID_ID)
    (hfree : s.freeCount ≠ 0)
    (hrOld : rOld < s.nextRef)
    (huse : s.use_cas = true)
    (hbound : oit.cas ≤ s.cas_id) :
    (item_cas k v e tok s).1 = ITEM_OK ∧
    ∃ it',
      assoc_get k (item_cas k v e tok s).2.table = some s.nextRef ∧
      heapGet (item_cas k v e tok s).2.heap s.nextRef = some it' ∧
      item_get_cas it' = s.cas_id + 1 ∧
      item_get_cas it' ≠ tok := by
  have hne : rOld ≠ s.nextRef := Nat.ne_of_lt hrOld
  have hget := item_get_eq_hit s k rOld oit htab hit hexp
  rw [item_acquire_refcount_eq s rOld oit hit] at hget
  have hit1 : heapGet (heapSet s.heap rOld { oit with refcount := oit.refcount + 1 }) rOld =
      some { oit with refcount := oit.refcount + 1 } :=
    heapGet_heapSet_self s.heap rOld oit _ hit
  have hcore := item_cas_eq_core k v e tok s rOld
    { s with heap := heapSet s.heap rOld { oit with refcount := oit.refcount + 1 },
             slabRef := s.slabRef + 1 }
    { oit with refcount := oit.refcount + 1 } hget hit1 htok
  have halloc := item_alloc_eq_success k e v.length
    { s with heap := heapSet s.heap rOld { oit with refcount := oit.refcount + 1 },
             slabRef := s.slabRef + 1 } hid hfree
  rw [halloc] at hcore
  have hcore2 : item_cas k v e tok s = (ITEM_OK,
      item_release_refcount s.nextRef
        (item_release_refcount rOld
          (item_relink rOld s.nextRef (heapModify s.nextRef (fun it =>
            let it1 := item_set_cas it tok
            item_check_type { it1 with buf := writeBytes it1.buf (item_data it1) v })
            { s with
              heap := (s.nextRef, allocItem k e v.length s.use_cas) ::
                heapSet s.heap rOld { oit with refcount := oit.refcount + 1 },
              freeCount := s.freeCount - 1, nextRef := s.nextRef + 1,
              slabRef := s.slabRef + 1 + 1, item_req := s.item_req + 1 })))) := hcore
  have hmod : heapModify s.nextRef (fun it =>
      let it1 := item_set_cas it tok
      item_check_type { it1 with buf := writeBytes it1.buf (item_data it1) v })
      { s with
        heap := (s.nextRef, allocItem k e v.length s.use_cas) ::
          heapSet s.heap rOld { oit with refcount := oit.refcount + 1 },
        freeCount := s.freeCount - 1, nextRef := s.nextRef + 1,
        slabRef := s.slabRef + 1 + 1, item_req := s.item_req + 1 } =
      { s with
        heap := (s.nextRef, casItem k v e tok s.use_cas) ::
          heapSet s.heap rOld { oit with refcount := oit.refcount + 1 },
        freeCount := s.freeCount - 1, nextRef := s.nextRef + 1,
        slabRef := s.slabRef + 1 + 1, item_req := s.item_req + 1 } := by
    rw [heapModify_eq _ s.nextRef _ (allocItem k e v.length s.use_cas)
      (heapGet_cons_self _ _ _)]
    simp [casItem]
  rw [hmod] at hcore2
  have hcore3 : item_cas k v e tok s = (ITEM_OK,
      item_release_refcount s.nextRef
        (item_release_refcount rOld
          (item_link s.nextRef (item_unlink rOld
            { s with
              heap := (s.nextRef, casItem k v e tok s.use_cas) ::
                heapSet s.heap rOld { oit with refcount := oit.refcount + 1 },
              freeCount := s.freeCount - 1, nextRef := s.nextRef + 1,
              slabRef := s.slabRef + 1 + 1, item_req := s.item_req + 1 })))) := hcore2
  have hru := unlink_other_facts
    { s with
      heap := (s.nextRef, casItem k v e tok s.use_cas) ::
        heapSet s.heap rOld { oit with refcount := oit.refcount + 1 },
      freeCount := s.freeCount - 1, nextRef := s.nextRef + 1,
      slabRef := s.slabRef + 1 + 1, item_req := s.item_req + 1 } rOld
  have hsetIt1 : heapGet (item_unlink rOld
      { s with
        heap := (s.nextRef, casItem k v e tok s.use_cas) ::
          heapSet s.heap rOld { oit with refcount := oit.refcount + 1 },
        freeCount := s.freeCount - 1, nextRef := s.nextRef + 1,
        slabRef := s.slabRef + 1 + 1, item_req := s.item_req + 1 }).heap s.nextRef =
      some (casItem k v e tok s.use_cas) := by
    rw [hru.2.2.2.2 s.nextRef (Ne.symm hne)]
    exact heapGet_cons_self _ _ _
  have hlink := item_link_eq' _ s.nextRef (casItem k v e tok s.use_cas) hsetIt1
  have hcn : (if (item_unlink rOld
      { s with
        heap := (s.nextRef, casItem k v e tok s.use_cas) ::
          heapSet s.heap rOld { oit with refcount := oit.refcount + 1 },
        freeCount := s.freeCount - 1, nextRef := s.nextRef + 1,
        slabRef := s.slabRef + 1 + 1, item_req := s.item_req + 1 }).use_cas then
      (item_unlink rOld
      { s with
        heap := (s.nextRef, casItem k v e tok s.use_cas) ::
          heapSet s.heap rOld { oit with refcount := oit.refcount + 1 },
        freeCount := s.freeCount - 1, nextRef := s.nextRef + 1,
        slabRef := s.slabRef + 1 + 1, item_req := s.item_req + 1 }).cas_id + 1 else 0) =
      s.cas_id + 1 := by
    rw [hru.2.2.1, hru.2.2.2.1]
    show (if s.use_cas then s.cas_id + 1 else 0) = s.cas_id + 1
    rw [huse]
    simp
  have hitL0 : heapGet (item_link s.nextRef (item_unlink rOld
      { s with
        heap := (s.nextRef, casItem k v e tok s.use_cas) ::
          heapSet s.heap rOld { oit with refcount := oit.refcount + 1 },
        freeCount := s.freeCount - 1, nextRef := s.nextRef + 1,
        slabRef := s.slabRef + 1 + 1, item_req := s.item_req + 1 })).heap s.nextRef =
      some (item_set_cas { casItem k v e tok s.use_cas with is_linked := true }
        (if (item_unlink rOld
          { s with
            heap := (s.nextRef, casItem k v e tok s.use_cas) ::
              heapSet s.heap rOld { oit with refcount := oit.refcount + 1 },
            freeCount := s.freeCount - 1, nextRef := s.nextRef + 1,
            slabRef := s.slabRef + 1 + 1, item_req := s.item_req + 1 }).use_cas then
          (item_unlink rOld
          { s with
            heap := (s.nextRef, casItem k v e tok s.use_cas) ::
              heapSet s.heap rOld { oit with refcount := oit.refcount + 1 },
            freeCount := s.freeCount - 1, nextRef := s.nextRef + 1,
            slabRef := s.slabRef + 1 + 1, item_req := s.item_req + 1 }).cas_id + 1 else 0)) := by
    rw [hlink]
    exact heapGet_heapSet_self _ _ _ _ hsetIt1
  rw [hcn] at hitL0
  have hro := release_other_facts (item_link s.nextRef (item_unlink rOld
    { s with
      heap := (s.nextRef, casItem k v e tok s.use_cas) ::
        heapSet s.heap rOld { oit with refcount := oit.refcount + 1 },
      freeCount := s.freeCount - 1, nextRef := s.nextRef + 1,
      slabRef := s.slabRef + 1 + 1, item_req := s.item_req + 1 })) rOld
  have hitL2 : heapGet (item_release_refcount rOld (item_link s.nextRef (item_unlink rOld
      { s with
        heap := (s.nextRef, casItem k v e tok s.use_cas) ::
          heapSet s.heap rOld { oit with refcount := oit.refcount + 1 },
        freeCount := s.freeCount - 1, nextRef := s.nextRef + 1,
        slabRef := s.slabRef + 1 + 1, item_req := s.item_req + 1 }))).heap s.nextRef =
      some (item_set_cas { casItem k v e tok s.use_cas with is_linked := true }
        (s.cas_id + 1)) := by
    rw [hro.2.2.2.2 s.nextRef (Ne.symm hne)]
    exact hitL0
  have htabu : assoc_get k (item_release_refcount rOld (item_link s.nextRef (item_unlink rOld
      { s with
        heap := (s.nextRef, casItem k v e tok s.use_cas) ::
          heapSet s.heap rOld { oit with refcount := oit.refcount + 1 },
        freeCount := s.freeCount - 1, nextRef := s.nextRef + 1,
        slabRef := s.slabRef + 1 + 1, item_req := s.item_req + 1 }))).table =
      some s.nextRef := by
    rw [hro.1, hlink]
    show assoc_get k (assoc_put (casItem k v e tok s.use_cas).key s.nextRef _) = some s.nextRef
    rw [casItem_key]
    exact assoc_get_put_self k s.nextRef _
  have hF : item_release_refcount s.nextRef
      (item_release_refcount rOld (item_link s.nextRef (item_unlink rOld
      { s with
        heap := (s.nextRef, casItem k v e tok s.use_cas) ::
          heapSet s.heap rOld { oit with refcount := oit.refcount + 1 },
        freeCount := s.freeCount - 1, nextRef := s.nextRef + 1,
        slabRef := s.slabRef + 1 + 1, item_req := s.item_req + 1 }))) =
      { (item_release_refcount rOld (item_link s.nextRef (item_unlink rOld
        { s with
          heap := (s.nextRef, casItem k v e tok s.use_cas) ::
            heapSet s.heap rOld { oit with refcount := oit.refcount + 1 },
          freeCount := s.freeCount - 1, nextRef := s.nextRef + 1,
          slabRef := s.slabRef + 1 + 1, item_req := s.item_req + 1 }))) with
        heap := heapSet (item_release_refcount rOld (item_link s.nextRef (item_unlink rOld
          { s with
            heap := (s.nextRef, casItem k v e tok s.use_cas) ::
              heapSet s.heap rOld { oit with refcount := oit.refcount + 1 },
            freeCount := s.freeCount - 1, nextRef := s.nextRef + 1,
            slabRef := s.slabRef + 1 + 1, item_req := s.item_req + 1 }))).heap s.nextRef
          ({ item_set_cas { casItem k v e tok s.use_cas with is_linked := true }
              (s.cas_id + 1) with refcount := 0 }),
        slabRef := (item_release_refcount rOld (item_link s.nextRef (item_unlink rOld
          { s with
            heap := (s.nextRef, casItem k v e tok s.use_cas) ::
              heapSet s.heap rOld { oit with refcount := oit.refcount + 1 },
            freeCount := s.freeCount - 1, nextRef := s.nextRef + 1,
            slabRef := s.slabRef + 1 + 1, item_req := s.item_req + 1 }))).slabRef - 1 } := by
    rw [item_release_refcount_eq _ s.nextRef _ hitL2]
    simp
  rw [hcore3]
  refine ⟨rfl, ⟨({ item_set_cas { casItem k v e tok s.use_cas with is_linked := true }
    (s.cas_id + 1) with refcount := 0 } : Item), ?_, ?_, ?_, ?_⟩⟩
  · rw [(release_other_facts _ _).1]
    exact htabu
  · rw [hF]
    exact heapGet_heapSet_self _ _ _ _ hitL2
  · show item_get_cas ({ item_set_cas { casItem k v e tok s.use_cas with is_linked := true }
        (s.cas_id + 1) with refcount := 0 } : Item) = s.cas_id + 1
    rw [item_get_cas_update_refcount]
    exact item_get_cas_linkedCasItem k v e tok (s.cas_id + 1) s.use_cas huse
  · show item_get_cas ({ item_set_cas { casItem k v e tok s.use_cas with is_linked := true }
        (s.cas_id + 1) with refcount := 0 } : Item) ≠ tok
    rw [item_get_cas_update_refcount]
    show item_get_cas (linkedCasItem k v e tok (s.cas_id + 1) s.use_cas) ≠ tok
    rw [item_get_cas_linkedCasItem k v e tok (s.cas_id + 1) s.use_cas huse]
    have htokle : tok ≤ s.cas_id := by
      rw [htok]
      unfold item_get_cas
      split
      · exact hbound
      · omega
    omega

/-! ### Concrete fixtures for the witnesses -/

/-- A freshly set-up empty state: CAS enabled, four free chunks, `now` 100. -/
def testState : State :=
  { heap := [], table := [], freeCount := 4, nextRef := 0, cas_id := 0,
    use_cas := true, now := 100, slabRef := 0, item_req := 0, item_req_ex := 0,
    item_link := 0, item_unlink := 0, item_remove := 0, item_curr := 0,
    item_keyval_byte := 0, item_val_byte := 0 }

/-- The item produced by `item_set "k" "aaaa" 0` on `testState`. -/
def itemA : Item :=
  { klen := 1, key := [107], vlen := 4, exptime := 0, id := 1, refcount := 0,
    is_linked := true, has_cas := true, in_freeq := false, is_raligned := false,
    cas := 1, vtype := VType.V_STR,
    buf := [97, 97, 97, 97] ++ List.replicate 11 0 }

/-- `testState` after `item_set "k" "aaaa" 0`: one linked item. -/
def stateA : State :=
  { heap := [(0, itemA)], table := [([107], 0)], freeCount := 3, nextRef := 1,
    cas_id := 1, use_cas := true, now := 100, slabRef := 0, item_req := 1,
    item_req_ex := 0, item_link := 1, item_unlink := 0, item_remove := 0,
    item_curr := 1, item_keyval_byte := 5, item_val_byte := 4 }

/-- Like `itemA` but already expired at `now = 100` (`exptime = 50`). -/
def itemE : Item :=
  { itemA with exptime := 50 }

/-- Like `stateA` but the linked item is expired. -/
def stateE : State :=
  { stateA with heap := [(0, itemE)] }

/-- C2 counterexample: a successful `item_cas` with supplied token 1 on
the linked "aaaa" item (stored token 1) leaves the new item with stored
CAS token 2 — the freshly generated counter value, not the supplied 1. -/
theorem c2_cas_counterexample :
    (item_cas [107] [98] 0 1 stateA).1 = ITEM_OK ∧
    assoc_get [107] (item_cas [107] [98] 0 1 stateA).2.table = some 1 ∧
    (heapGet (item_cas [107] [98] 0 1 stateA).2.heap 1).map item_get_cas = some 2 ∧
    (2 : Nat) ≠ 1 := by decide

/-- C2 witness: instantiating the amended claim on the fixture state:
the cas with matching token 1 succeeds and stores token 2 = cas_id + 1. -/
theorem c2_cas_token_freshly_generated_witness :
    (item_cas [107] [98] 0 1 stateA).1 = ITEM_OK ∧
    ∃ it',
      assoc_get [107] (item_cas [107] [98] 0 1 stateA).2.table = some stateA.nextRef ∧
      heapGet (item_cas [107] [98] 0 1 stateA).2.heap stateA.nextRef = some it' ∧
      item_get_cas it' = stateA.cas_id + 1 ∧
      item_get_cas it' ≠ 1 :=
  c2_cas_token_freshly_generated stateA [107] [98] 0 1 0 itemA (by decide) (by decide)
    (by decide) (by decide) (by decide) (by decide) (by decide) (by decide) (by decide)

/-- C10 witness: on a state with no free chunks, `item_cas` with the
matching token fails with `ITEM_ENOMEM` and the old item's refcount stays
one above its pre-call value. -/
theorem c10_cas_alloc_fail_leaks_refcount_witness :
    ((item_cas [107] [98] 0 1 { stateA with freeCount := 0 }).1 = ITEM_EOVERSIZED ∨
     (item_cas [107] [98] 0 1 { stateA with freeCount := 0 }).1 = ITEM_ENOMEM) ∧
    heapGet (item_cas [107] [98] 0 1 { stateA with freeCount := 0 }).2.heap 0 =
      some { itemA with refcount := itemA.refcount + 1 } :=
  c10_cas_alloc_fail_leaks_refcount { stateA with freeCount := 0 } [107] [98] 0 1 0 itemA
    (by decide) (by decide) (by decide) (by decide) (Or.inr rfl)

/-- C1 witness: storing "bb" under key "k" in the empty fixture state and
immediately getting it back yields the value "bb". -/
theorem c1_set_then_get_witness :
    (item_set [107] [98, 98] 0 testState).1 = ITEM_OK ∧
    ∃ it',
      (item_get [107] (item_set [107] [98, 98] 0 testState).2).1 = some testState.nextRef ∧
      heapGet (item_set [107] [98, 98] 0 testState).2.heap testState.nextRef = some it' ∧
      it'.key = [107] ∧ it'.vlen = 2 ∧ item_val it' = [98, 98] ∧ it'.is_linked = true :=
  c1_set_then_get testState [107] [98, 98] 0 (Or.inl rfl) (by decide) (by decide)
    (fun r hr => absurd hr (by simp [assoc_get, testState]))

/-- C5 witness: appending "bb" to the linked "aaaa" item stays in class
1, in place, with no new allocation. -/
theorem c5_annex_append_fast_witness :
    item_slabid stateA.use_cas ([107] : List Nat).length (itemA.vlen + ([98, 98] : List Nat).length) = itemA.id ∧
    (item_annex [107] [98, 98] true stateA).1 = ITEM_OK ∧
    (item_annex [107] [98, 98] true stateA).2.nextRef = stateA.nextRef := by
  have h := c5_annex_append_fast stateA [107] [98, 98] 0 itemA (by decide) (by decide)
    (by decide) (by decide) (by decide) (by decide) (by decide) (by decide) (by decide)
    (by decide)
  exact ⟨by decide, h.1, h.2.2.1⟩



/-! ### Claims -/

/-- C7: a `set` whose total item size exceeds the largest slab class
returns `ITEM_EOVERSIZED` and leaves the state untouched: no hash-index
entry, no slab chunk consumed, `item_req` and `item_req_ex` unchanged. -/
theorem c7_set_oversized_rejected (s : State) (k v : List Nat) (e : Nat)
    (h : slab_item_size SLABCLASS_MAX_ID < item_ntotal k.length v.length s.use_cas) :
    item_set k v e s = (ITEM_EOVERSIZED, s) ∧
    (item_set k v e s).2.table = s.table ∧
    (item_set k v e s).2.heap = s.heap ∧
    (item_set k v e s).2.freeCount = s.freeCount ∧
    (item_set k v e s).2.item_req = s.item_req ∧
    (item_set k v e s).2.item_req_ex = s.item_req_ex := by
  have hid : slab_id (item_ntotal k.length v.length s.use_cas) = SLABCLASS_INVALID_ID := by
    unfold slab_item_size SLABCLASS_MAX_ID at h
    unfold slab_id SLABCLASS_INVALID_ID
    norm_num at h
    split_ifs <;> omega
  have hset : item_set k v e s = (ITEM_EOVERSIZED, s) := by
    unfold item_set item_alloc
    rw [hid]
    simp
  refine ⟨hset, ?_, ?_, ?_, ?_, ?_⟩ <;> rw [hset]

set_option maxRecDepth 4000 in
/-- C7 witness: a 600-byte value on a one-byte key overflows the largest
(512-byte) class; the set is rejected without touching `testState`. -/
theorem c7_set_oversized_rejected_witness :
    slab_item_size SLABCLASS_MAX_ID <
        item_ntotal ([107] : List Nat).length (List.replicate 600 65).length
          testState.use_cas ∧
    item_set [107] (List.replicate 600 65) 0 testState = (ITEM_EOVERSIZED, testState) :=
  ⟨by decide, (c7_set_oversized_rejected testState [107] (List.replicate 600 65) 0
      (by decide)).1⟩

/-- C8: `item_update` returns `ITEM_EOVERSIZED` iff the new value no
longer fits the item's slab class, mutating nothing in that case; on
success it overwrites the value in place, sets `vlen`, reclassifies
`vtype`, and leaves the CAS token, linked bit and hash table unchanged. -/
theorem c8_update_oversized_or_in_place (s : State) (r : Nat) (v : List Nat) (it : Item)
    (hit : heapGet s.heap r = some it)
    (hbuf : it.buf.length = dataCap it)
    (hcas : it.has_cas = s.use_cas)
    (hmax : it.id ≤ SLABCLASS_MAX_ID) :
    ((item_update r v s).1 = ITEM_EOVERSIZED ↔
      item_slabid s.use_cas it.klen v.length ≠ it.id) ∧
    (item_slabid s.use_cas it.klen v.length ≠ it.id → (item_update r v s).2 = s) ∧
    (item_slabid s.use_cas it.klen v.length = it.id →
      (item_update r v s).1 = ITEM_OK ∧
      (item_update r v s).2.table = s.table ∧
      ∃ it', heapGet (item_update r v s).2.heap r = some it' ∧
        it'.vlen = v.length ∧ item_val it' = v ∧
        it'.cas = it.cas ∧ it'.is_linked = it.is_linked ∧ it'.key = it.key ∧
        it'.vtype = (if bstring_atou64_ok v then VType.V_INT else VType.V_STR)) := by
  rw [item_update_eq s r v it hit]
  by_cases hov : item_slabid s.use_cas it.klen v.length = it.id
  · have hvfit : v.length ≤ dataCap it := vlen_le_dataCap s.use_cas it v.length hcas hov hmax
    rw [if_neg (not_not_intro hov)]
    have hval : item_val
        ({ it with vlen := v.length,
                   buf := writeBytes it.buf (item_data { it with vlen := v.length }) v } :
          Item) = v := by
      unfold item_val item_data
      by_cases hra : it.is_raligned
      · simp only [hra, if_true]
        show readBytes (writeBytes it.buf (dataCap { it with vlen := v.length } - v.length) v)
          (dataCap { it with vlen := v.length } - v.length) v.length = v
        have hdc : dataCap { it with vlen := v.length } = dataCap it := rfl
        rw [hdc]
        exact readBytes_writeBytes it.buf v (dataCap it - v.length) (by omega)
      · simp only [hra, Bool.false_eq_true, if_false]
        show readBytes (writeBytes it.buf 0 v) 0 v.length = v
        exact readBytes_writeBytes it.buf v 0 (by omega)
    refine ⟨by simp [hov], fun hc => absurd hov hc, fun _ => ⟨rfl, rfl, ?_⟩⟩
    refine ⟨_, heapGet_heapSet_self s.heap r it _ hit, by simp, ?_, by simp, by simp, by simp,
      ?_⟩
    · rw [item_val_check_type]
      exact hval
    · rw [check_type_vtype, hval]
  · rw [if_pos hov]
    exact ⟨by simp [hov], fun _ => rfl, fun hc => absurd hc hov⟩

/-- C8 witness: updating the linked "aaaa" item with "bb" succeeds in
place; updating it with 600 bytes is rejected without mutation. -/
theorem c8_update_oversized_or_in_place_witness :
    heapGet stateA.heap 0 = some itemA ∧
    (item_update 0 [98, 98] stateA).1 = ITEM_OK := by
  have h := c8_update_oversized_or_in_place stateA 0 [98, 98] itemA
    (by decide) (by decide) (by decide) (by decide)
  exact ⟨by decide, (h.2.2 (by decide)).1⟩

/-- C3: `item_get` on a linked but expired item (`exptime ≠ 0` and
`exptime ≤ now`) unlinks it — removing it from the hash index and clearing
its linked bit — returns null, and decrements the `item_curr` gauge by 1;
a subsequent `item_get` of the key also returns null. -/
theorem c3_get_expired_unlinks (s : State) (k : List Nat) (r : Nat) (it : Item)
    (htab : assoc_get k s.table = some r)
    (hit : heapGet s.heap r = some it)
    (hkey : it.key = k)
    (hlinked : it.is_linked = true)
    (hexp : it.exptime ≠ 0 ∧ it.exptime ≤ s.now)
    (htuniq : s.table.Pairwise (fun a b => a.1 ≠ b.1))
    (hhuniq : s.heap.Pairwise (fun a b => a.1 ≠ b.1)) :
    (item_get k s).1 = none ∧
    assoc_get k (item_get k s).2.table = none ∧
    (item_get k s).2.item_curr = s.item_curr - 1 ∧
    (∀ it', heapGet (item_get k s).2.heap r = some it' → it'.is_linked = false) ∧
    item_get k (item_get k s).2 = (none, (item_get k s).2) := by
  have hget : item_get k s = (none, item_unlink r s) :=
    item_get_eq_expired s k r it htab hit hexp
  have hdel : assoc_get k (assoc_delete it.key s.table) = none := by
    rw [hkey]
    exact assoc_get_delete_self k s.table htuniq
  by_cases hrc : it.refcount = 0
  · have hfin : item_unlink r s = item_free r
        { s with item_unlink := s.item_unlink + 1,
                 item_curr := s.item_curr - 1,
                 item_keyval_byte := s.item_keyval_byte - ((it.klen + it.vlen : Nat) : Int),
                 item_val_byte := s.item_val_byte - ((it.vlen : Nat) : Int),
                 heap := heapSet s.heap r { it with is_linked := false },
                 table := assoc_delete it.key s.table } := by
      rw [item_unlink_eq s r it hit]
      simp [hlinked, hrc]
    rw [hget, hfin]
    refine ⟨rfl, hdel, rfl, ?_, ?_⟩
    · intro it' h
      simp only [item_free] at h
      rw [heapGet_heapRemove_self _ r (pairwise_heapSet s.heap r _ hhuniq)] at h
      exact Option.noConfusion h
    · apply item_get_eq_miss
      exact hdel
  · have hfin : item_unlink r s =
        { s with item_unlink := s.item_unlink + 1,
                 item_curr := s.item_curr - 1,
                 item_keyval_byte := s.item_keyval_byte - ((it.klen + it.vlen : Nat) : Int),
                 item_val_byte := s.item_val_byte - ((it.vlen : Nat) : Int),
                 heap := heapSet s.heap r { it with is_linked := false },
                 table := assoc_delete it.key s.table } := by
      rw [item_unlink_eq s r it hit]
      simp [hlinked, hrc]
    rw [hget, hfin]
    refine ⟨rfl, hdel, rfl, ?_, ?_⟩
    · intro it' h
      dsimp only at h
      rw [heapGet_heapSet_self s.heap r it _ hit] at h
      cases h
      rfl
    · apply item_get_eq_miss
      exact hdel

/-- C3 witness: the expired fixture item (`exptime = 50`, `now = 100`) is
nuked by a get: null result and `item_curr` drops by one. -/
theorem c3_get_expired_unlinks_witness :
    itemE.exptime ≠ 0 ∧ itemE.exptime ≤ stateE.now ∧
    (item_get [107] stateE).1 = none ∧
    (item_get [107] stateE).2.item_curr = stateE.item_curr - 1 := by
  have h := c3_get_expired_unlinks stateE [107] 0 itemE (by decide) (by decide)
    (by decide) (by decide) ⟨by decide, by decide⟩ (by decide) (by decide)
  exact ⟨by decide, by decide, h.1, h.2.2.1⟩

/-- C9: `item_delete` returns `ITEM_ENOTFOUND` exactly when the internal
get returns null (key absent, or present and expired); otherwise it
returns `ITEM_OK` after unlinking the item and releasing the refcount
taken by the get, so a subsequent get of the key misses, and — when the
get held the only reference — the chunk is freed back to the slab. -/
theorem c9_delete_semantics (s : State) (k : List Nat) :
    ((item_delete k s).1 = ITEM_ENOTFOUND ↔ (item_get k s).1 = none) ∧
    (∀ r it,
      assoc_get k s.table = some r →
      heapGet s.heap r = some it →
      it.key = k → it.is_linked = true → it.refcount = 0 →
      ¬(it.exptime ≠ 0 ∧ it.exptime ≤ s.now) →
      s.table.Pairwise (fun a b => a.1 ≠ b.1) →
      s.heap.Pairwise (fun a b => a.1 ≠ b.1) →
      (item_delete k s).1 = ITEM_OK ∧
      assoc_get k (item_delete k s).2.table = none ∧
      item_get k (item_delete k s).2 = (none, (item_delete k s).2) ∧
      heapGet (item_delete k s).2.heap r = none ∧
      (item_delete k s).2.freeCount = s.freeCount + 1 ∧
      (item_delete k s).2.item_remove = s.item_remove + 1) := by
  constructor
  · rcases hks : item_get k s with ⟨o, s1⟩
    cases o with
    | none =>
        unfold item_delete
        rw [hks]
        simp
    | some r =>
        unfold item_delete
        rw [hks]
        simp
  · intro r it htab hit hkey hlinked hrc0 hexp htuniq hhuniq
    have hdel : assoc_get k (assoc_delete it.key s.table) = none := by
      rw [hkey]
      exact assoc_get_delete_self k s.table htuniq
    have hGET : item_get k s = (some r,
        { s with heap := heapSet s.heap r { it with refcount := it.refcount + 1 },
                 slabRef := s.slabRef + 1 }) := by
      rw [item_get_eq_hit s k r it htab hit hexp, item_acquire_refcount_eq s r it hit]
    have hA : heapGet (heapSet s.heap r { it with refcount := it.refcount + 1 }) r =
        some { it with refcount := it.refcount + 1 } :=
      heapGet_heapSet_self s.heap r it _ hit
    have hunl : item_unlink r
        { s with heap := heapSet s.heap r { it with refcount := it.refcount + 1 },
                 slabRef := s.slabRef + 1 } =
        { s with
          heap := heapSet (heapSet s.heap r { it with refcount := it.refcount + 1 }) r
            { it with refcount := it.refcount + 1, is_linked := false },
          table := assoc_delete it.key s.table,
          slabRef := s.slabRef + 1,
          item_unlink := s.item_unlink + 1,
          item_curr := s.item_curr - 1,
          item_keyval_byte := s.item_keyval_byte - ((it.klen + it.vlen : Nat) : Int),
          item_val_byte := s.item_val_byte - ((it.vlen : Nat) : Int) } := by
      rw [item_unlink_eq _ r { it with refcount := it.refcount + 1 } hA]
      simp [hlinked]
    have hB : heapGet (heapSet (heapSet s.heap r { it with refcount := it.refcount + 1 }) r
        { it with refcount := it.refcount + 1, is_linked := false }) r =
        some { it with refcount := it.refcount + 1, is_linked := false } :=
      heapGet_heapSet_self _ r { it with refcount := it.refcount + 1 } _ hA
    have hrel : item_release_refcount r
        { s with
          heap := heapSet (heapSet s.heap r { it with refcount := it.refcount + 1 }) r
            { it with refcount := it.refcount + 1, is_linked := false },
          table := assoc_delete it.key s.table,
          slabRef := s.slabRef + 1,
          item_unlink := s.item_unlink + 1,
          item_curr := s.item_curr - 1,
          item_keyval_byte := s.item_keyval_byte - ((it.klen + it.vlen : Nat) : Int),
          item_val_byte := s.item_val_byte - ((it.vlen : Nat) : Int) } =
        item_free r
        { s with
          heap := heapSet (heapSet (heapSet s.heap r { it with refcount := it.refcount + 1 }) r
            { it with refcount := it.refcount + 1, is_linked := false }) r
            { it with refcount := it.refcount + 1 - 1, is_linked := false },
          table := assoc_delete it.key s.table,
          slabRef := s.slabRef + 1 - 1,
          item_unlink := s.item_unlink + 1,
          item_curr := s.item_curr - 1,
          item_keyval_byte := s.item_keyval_byte - ((it.klen + it.vlen : Nat) : Int),
          item_val_byte := s.item_val_byte - ((it.vlen : Nat) : Int) } := by
      rw [item_release_refcount_eq _ r { it with refcount := it.refcount + 1, is_linked := false } hB]
      simp [hrc0]
    have hdelete : item_delete k s = (ITEM_OK,
        item_release_refcount r (item_unlink r
          { s with heap := heapSet s.heap r { it with refcount := it.refcount + 1 },
                   slabRef := s.slabRef + 1 })) := by
      unfold item_delete
      rw [hGET]
    rw [hdelete, hunl, hrel]
    refine ⟨rfl, hdel, ?_, ?_, rfl, rfl⟩
    · apply item_get_eq_miss
      exact hdel
    · simp only [item_free]
      exact heapGet_heapRemove_self _ r
        (pairwise_heapSet _ r _ (pairwise_heapSet _ r _ (pairwise_heapSet _ r _ hhuniq)))

/-- C9 witness: deleting the linked "aaaa" item from `stateA` returns
`ITEM_OK`, frees the chunk, and the ENOTFOUND-iff-miss equivalence holds. -/
theorem c9_delete_semantics_witness :
    ((item_delete [107] stateA).1 = ITEM_ENOTFOUND ↔ (item_get [107] stateA).1 = none) ∧
    (item_delete [107] stateA).1 = ITEM_OK ∧
    heapGet (item_delete [107] stateA).2.heap 0 = none := by
  have h := c9_delete_semantics stateA [107]
  have h2 := h.2 0 itemA (by decide) (by decide) (by decide) (by decide) (by decide)
    (by decide) (by decide) (by decide)
  exact ⟨h.1, h2.1, h2.2.2.2.1⟩

/-- C4: a release decrements the item's refcount (and the slab's) only
when the refcount is nonzero, and frees the chunk back to the slab
(incrementing `item_remove`) iff afterwards the refcount is zero and the
item is unlinked; a linked or borrowed item is never freed. -/
theorem c4_release_refcount (s : State) (r : Nat) (it : Item)
    (hit : heapGet s.heap r = some it)
    (huniq : s.heap.Pairwise (fun a b => a.1 ≠ b.1)) :
    (0 < it.refcount → (item_release_refcount r s).slabRef = s.slabRef - 1) ∧
    (it.refcount = 0 → (item_release_refcount r s).slabRef = s.slabRef) ∧
    ((it.refcount - 1 = 0 ∧ it.is_linked = false) ↔
      ((item_release_refcount r s).item_remove = s.item_remove + 1 ∧
       (item_release_refcount r s).freeCount = s.freeCount + 1 ∧
       heapGet (item_release_refcount r s).heap r = none)) ∧
    (¬(it.refcount - 1 = 0 ∧ it.is_linked = false) →
      heapGet (item_release_refcount r s).heap r =
        some { it with refcount := it.refcount - 1 } ∧
      (item_release_refcount r s).item_remove = s.item_remove ∧
      (item_release_refcount r s).freeCount = s.freeCount) := by
  by_cases h0 : it.refcount = 0
  · by_cases hl : it.is_linked = false
    · have hfin : item_release_refcount r s = item_free r s := by
        rw [item_release_refcount_eq s r it hit]
        simp [h0, hl]
      refine ⟨fun hc => absurd h0 (by omega), fun _ => by rw [hfin]; rfl, ?_, ?_⟩
      · refine ⟨fun _ => ?_, fun _ => ⟨by omega, hl⟩⟩
        rw [hfin]
        exact ⟨rfl, rfl, heapGet_heapRemove_self s.heap r huniq⟩
      · intro hc; exact absurd ⟨by omega, hl⟩ hc
    · have hfin : item_release_refcount r s = s := by
        rw [item_release_refcount_eq s r it hit]
        simp [h0, hl]
      refine ⟨fun hc => absurd h0 (by omega), fun _ => by rw [hfin], ?_, ?_⟩
      · constructor
        · intro hc; exact absurd hc.2 hl
        · intro hc
          rw [hfin] at hc
          omega
      · intro _
        refine ⟨?_, by rw [hfin], by rw [hfin]⟩
        rw [hfin, hit]
        have hrc : it.refcount - 1 = it.refcount := by omega
        rw [hrc]
  · by_cases hfree : it.refcount - 1 = 0 ∧ it.is_linked = false
    · have hfin : item_release_refcount r s =
          item_free r { s with
            heap := heapSet s.heap r { it with refcount := it.refcount - 1 },
            slabRef := s.slabRef - 1 } := by
        rw [item_release_refcount_eq s r it hit]
        simp [h0, hfree.1, hfree.2]
      refine ⟨fun _ => by rw [hfin]; rfl, fun hc => absurd hc h0, ?_, ?_⟩
      · refine ⟨fun _ => ?_, fun _ => hfree⟩
        rw [hfin]
        refine ⟨rfl, rfl, ?_⟩
        exact heapGet_heapRemove_self _ r (pairwise_heapSet s.heap r _ huniq)
      · intro hc; exact absurd hfree hc
    · have hfin : item_release_refcount r s =
          { s with
            heap := heapSet s.heap r { it with refcount := it.refcount - 1 },
            slabRef := s.slabRef - 1 } := by
        rw [item_release_refcount_eq s r it hit]
        simp only [ne_eq, h0, not_false_eq_true, if_true, ite_true]
        rw [if_neg hfree]
      refine ⟨fun _ => by rw [hfin], fun hc => absurd hc h0, ?_, ?_⟩
      · constructor
        · intro hc; exact absurd hc hfree
        · intro hc
          rw [hfin] at hc
          have := hc.1
          simp at this
      · intro _
        rw [hfin]
        exact ⟨heapGet_heapSet_self s.heap r it _ hit, rfl, rfl⟩

/-- C4 witness: releasing the refcount-1 unlinked copy of the "aaaa" item
frees the chunk; the theorem's hypotheses hold for the concrete state. -/
theorem c4_release_refcount_witness :
    (0 : Nat) < 1 ∧
    (item_release_refcount 0
      { stateA with heap := [(0, { itemA with refcount := 1, is_linked := false })] }).slabRef
      = stateA.slabRef - 1 :=
  ⟨by decide,
    (c4_release_refcount
      { stateA with heap := [(0, { itemA with refcount := 1, is_linked := false })] }
      0 { itemA with refcount := 1, is_linked := false }
      (by decide) (by decide)).1 (by decide)⟩


/-- C6: an `item_annex` prepend that misses the fast path (with the grown
value still naming a valid slab class) allocates a fresh right-aligned
item holding `v ++ old`, relinks it under the key at the fresh reference,
and a subsequent in-class prepend then takes the fast path: no further
allocation, values concatenated in prepend order. -/
theorem c6_annex_prepend_slow_then_fast (s : State) (k v : List Nat) (r : Nat) (oit : Item)
    (htab : assoc_get k s.table = some r)
    (hit : heapGet s.heap r = some oit)
    (hexp : ¬(oit.exptime ≠ 0 ∧ oit.exptime ≤ s.now))
    (hlinked : oit.is_linked = true)
    (hklen : oit.klen = k.length)
    (hbuf : oit.buf.length = dataCap oit)
    (hvfit : oit.vlen ≤ dataCap oit)
    (hr : r < s.nextRef)
    (hfree : s.freeCount ≠ 0)
    (hid : slab_id (item_ntotal k.length (oit.vlen + v.length) s.use_cas) ≠
      SLABCLASS_INVALID_ID)
    (hslow : ¬(item_slabid s.use_cas k.length (oit.vlen + v.length) = oit.id ∧
      oit.is_raligned = true)) :
    (item_annex k v false s).1 = ITEM_OK ∧
    (item_annex k v false s).2.nextRef = s.nextRef + 1 ∧
    assoc_get k (item_annex k v false s).2.table = some s.nextRef ∧
    ∃ it',
      heapGet (item_annex k v false s).2.heap s.nextRef = some it' ∧
      it'.is_linked = true ∧
      it'.is_raligned = true ∧
      it'.vlen = oit.vlen + v.length ∧
      item_val it' = v ++ item_val oit ∧
      ∀ w : List Nat,
        item_slabid s.use_cas k.length (it'.vlen + w.length) = it'.id →
        (item_annex k w false (item_annex k v false s).2).1 = ITEM_OK ∧
        (item_annex k w false (item_annex k v false s).2).2.nextRef = s.nextRef + 1 ∧
        ∃ it2,
          heapGet (item_annex k w false (item_annex k v false s).2).2.heap s.nextRef =
            some it2 ∧
          it2.is_linked = true ∧
          item_val it2 = w ++ v ++ item_val oit := by
  have hget := item_get_eq_hit s k r oit htab hit hexp
  rw [item_acquire_refcount_eq s r oit hit] at hget
  set oitA : Item := { oit with refcount := oit.refcount + 1 } with hoitA
  set S1 : State := { s with heap := heapSet s.heap r oitA, slabRef := s.slabRef + 1 } with hS1
  have hit1 : heapGet S1.heap r = some oitA := by
    rw [hS1]
    exact heapGet_heapSet_self s.heap r oit oitA hit
  have hS1use : S1.use_cas = s.use_cas := by rw [hS1]
  have hinv' : item_slabid S1.use_cas k.length (oitA.vlen + v.length) ≠
      SLABCLASS_INVALID_ID := hid
  have hslow' : ¬(item_slabid S1.use_cas k.length (oitA.vlen + v.length) = oitA.id ∧
      oitA.is_raligned = true) := hslow
  have hid' : slab_id (item_ntotal k.length (oitA.vlen + v.length) S1.use_cas) ≠
      SLABCLASS_INVALID_ID := hid
  have hfree' : S1.freeCount ≠ 0 := hfree
  set S2 : State := { S1 with
    heap := (s.nextRef, allocItem k oitA.exptime (oitA.vlen + v.length) S1.use_cas) :: S1.heap,
    freeCount := S1.freeCount - 1,
    nextRef := s.nextRef + 1,
    slabRef := S1.slabRef + 1,
    item_req := S1.item_req + 1 } with hS2
  have halloc : item_alloc k oitA.exptime (oitA.vlen + v.length) S1 =
      (some s.nextRef, ITEM_OK, S2) :=
    item_alloc_eq_success k oitA.exptime (oitA.vlen + v.length) S1 hid' hfree'
  have hgetS2 : heapGet S2.heap s.nextRef =
      some (allocItem k oitA.exptime (oitA.vlen + v.length) S1.use_cas) := by
    rw [hS2]
    exact heapGet_cons_self _ _ _
  have happly : item_annex k v false s =
      (ITEM_OK, item_release_refcount s.nextRef (item_release_refcount r
        (item_relink r s.nextRef (heapModify s.nextRef (fun nit =>
          let nit1 := { nit with is_raligned := true }
          let nit2 := { nit1 with
            buf := writeBytes nit1.buf (item_data nit1 + v.length) (item_val oitA) }
          let nit3 := { nit2 with buf := writeBytes nit2.buf (item_data nit2) v }
          item_check_type nit3) S2)))) := by
    rw [item_annex_eq_prepend_slow k v s r S1 oitA hget hit1 hinv' hslow', halloc]
  set P : Item := prepItem k v (item_val oitA) oitA.exptime (oitA.vlen + v.length) S1.use_cas
    with hP
  set T1 : State := { S2 with heap := heapSet S2.heap s.nextRef P } with hT1
  have hmod : heapModify s.nextRef (fun nit =>
      let nit1 := { nit with is_raligned := true }
      let nit2 := { nit1 with
        buf := writeBytes nit1.buf (item_data nit1 + v.length) (item_val oitA) }
      let nit3 := { nit2 with buf := writeBytes nit2.buf (item_data nit2) v }
      item_check_type nit3) S2 = T1 := by
    rw [heapModify_eq S2 s.nextRef _
      (allocItem k oitA.exptime (oitA.vlen + v.length) S1.use_cas) hgetS2, hT1, hP]
    rfl
  have happly2 : item_annex k v false s =
      (ITEM_OK, item_release_refcount s.nextRef (item_release_refcount r
        (item_link s.nextRef (item_unlink r T1)))) := by
    rw [happly, hmod]
    rfl
  have hTP : heapGet T1.heap s.nextRef = some P := by
    rw [hT1]
    show heapGet (heapSet S2.heap s.nextRef P) s.nextRef = some P
    exact heapGet_heapSet_self S2.heap s.nextRef _ P hgetS2
  have hne : s.nextRef ≠ r := (Nat.ne_of_lt hr).symm
  have hu := unlink_other_facts T1 r
  have hUP : heapGet (item_unlink r T1).heap s.nextRef = some P := by
    rw [hu.2.2.2.2 s.nextRef hne]
    exact hTP
  have hlink := item_link_eq' (item_unlink r T1) s.nextRef P hUP
  set cL : Nat := if (item_unlink r T1).use_cas then (item_unlink r T1).cas_id + 1 else 0
    with hcL
  set Q : Item := item_set_cas { P with is_linked := true } cL with hQ
  have hLQ : heapGet (item_link s.nextRef (item_unlink r T1)).heap s.nextRef = some Q := by
    rw [hlink]
    show heapGet (heapSet (item_unlink r T1).heap s.nextRef Q) s.nextRef = some Q
    exact heapGet_heapSet_self (item_unlink r T1).heap s.nextRef _ Q hUP
  have hro := release_other_facts (item_link s.nextRef (item_unlink r T1)) r
  have hMQ : heapGet (item_release_refcount r
      (item_link s.nextRef (item_unlink r T1))).heap s.nextRef = some Q := by
    rw [hro.2.2.2.2 s.nextRef hne]
    exact hLQ
  have hPrc : P.refcount = 1 := by
    rw [hP]
    simp
  have hQrc : Q.refcount = 1 := by
    rw [hQ, set_cas_refcount]
    show P.refcount = 1
    exact hPrc
  have hQlinked : Q.is_linked = true := by
    rw [hQ, set_cas_is_linked]
  set M : State := item_release_refcount r (item_link s.nextRef (item_unlink r T1)) with hM
  set J : Item := { Q with refcount := 0 } with hJ
  set Fs : State := { M with heap := heapSet M.heap s.nextRef J, slabRef := M.slabRef - 1 }
    with hFs
  have hrelN : item_release_refcount s.nextRef M = Fs := by
    rw [item_release_refcount_eq M s.nextRef Q hMQ, hFs]
    simp [hQrc, hQlinked, hJ]
  have happly3 : item_annex k v false s = (ITEM_OK, Fs) := by
    rw [happly2, hrelN]
  have hFsQ : heapGet Fs.heap s.nextRef = some J := by
    rw [hFs]
    show heapGet (heapSet M.heap s.nextRef J) s.nextRef = some J
    exact heapGet_heapSet_self M.heap s.nextRef Q J hMQ
  have hPkey : P.key = k := by
    rw [hP]
    simp
  have htabF : assoc_get k Fs.table = some s.nextRef := by
    rw [hFs]
    show assoc_get k M.table = some s.nextRef
    rw [hro.1, hlink]
    show assoc_get k (assoc_put P.key s.nextRef (item_unlink r T1).table) = some s.nextRef
    rw [hPkey]
    exact assoc_get_put_self k s.nextRef (item_unlink r T1).table
  have hnextF : Fs.nextRef = s.nextRef + 1 := by
    rw [hFs]
    show M.nextRef = s.nextRef + 1
    rw [hro.2.2.1, hlink]
    show (item_unlink r T1).nextRef = s.nextRef + 1
    rw [hu.2.1, hT1]
  have huseF : Fs.use_cas = s.use_cas := by
    rw [hFs]
    show M.use_cas = s.use_cas
    rw [hro.2.2.2.1, hlink]
    show (item_unlink r T1).use_cas = s.use_cas
    rw [hu.2.2.1, hT1]
  have hnowF : Fs.now = s.now := by
    rw [hFs]
    show M.now = s.now
    rw [hro.2.1, hlink]
    show (item_unlink r T1).now = s.now
    rw [hu.1, hT1]
  have hJlinked : J.is_linked = true := by
    rw [hJ]
    show Q.is_linked = true
    exact hQlinked
  have hJral : J.is_raligned = true := by
    rw [hJ]
    show Q.is_raligned = true
    rw [hQ, set_cas_is_raligned]
    show P.is_raligned = true
    rw [hP]
    simp
  have hJvlen : J.vlen = oit.vlen + v.length := by
    rw [hJ]
    show Q.vlen = oit.vlen + v.length
    rw [hQ, set_cas_vlen]
    show P.vlen = oit.vlen + v.length
    rw [hP, prepItem_vlen]
  have hbufA : oitA.buf.length = dataCap oitA := hbuf
  have hvA : oitA.vlen ≤ dataCap oitA := hvfit
  have hlenval : (item_val oitA).length = oitA.vlen := length_item_val oitA hbufA hvA
  have hJval : item_val J = v ++ item_val oit := by
    rw [hJ, item_val_update_refcount, hQ, item_val_set_cas, item_val_update_linked, hP,
      item_val_prepItem k v (item_val oitA) oitA.exptime oitA.vlen S1.use_cas hlenval hid']
    show v ++ item_val oitA = v ++ item_val oit
    rfl
  have hJklen : J.klen = k.length := by
    rw [hJ]
    show Q.klen = k.length
    rw [hQ, set_cas_klen]
    show P.klen = k.length
    rw [hP, prepItem_klen]
  have hJhas : J.has_cas = s.use_cas := by
    rw [hJ]
    show Q.has_cas = s.use_cas
    rw [hQ, set_cas_has_cas]
    show P.has_cas = s.use_cas
    rw [hP, prepItem_has_cas]
  have hJexp : J.exptime = oit.exptime := by
    rw [hJ]
    show Q.exptime = oit.exptime
    rw [hQ, set_cas_exptime]
    show P.exptime = oit.exptime
    rw [hP, prepItem_exptime]
  have hJid : J.id = slab_id (item_ntotal k.length (oitA.vlen + v.length) S1.use_cas) := by
    rw [hJ]
    show Q.id = slab_id (item_ntotal k.length (oitA.vlen + v.length) S1.use_cas)
    rw [hQ, set_cas_id]
    show P.id = slab_id (item_ntotal k.length (oitA.vlen + v.length) S1.use_cas)
    rw [hP, prepItem_id]
  have hJmax : J.id ≤ SLABCLASS_MAX_ID := by
    rw [hJid]
    exact (slab_id_fits _ hid').2.1
  have hJbuf : J.buf.length = dataCap J := by
    have h1 : J.buf = P.buf := by
      rw [hJ]
      show Q.buf = P.buf
      rw [hQ, set_cas_buf]
    have h2 : dataCap J = dataCap P := by
      rw [hJ]
      show dataCap Q = dataCap P
      rw [hQ, dataCap_set_cas]
      rfl
    rw [h1, h2, hP]
    exact prepItem_buf_length k v (item_val oitA) oitA.exptime oitA.vlen S1.use_cas
      hlenval hid'
  rw [happly3]
  refine ⟨rfl, hnextF, htabF, J, hFsQ, hJlinked, hJral, hJvlen, hJval, ?_⟩
  intro w hw
  have hslab2 : item_slabid Fs.use_cas k.length (J.vlen + w.length) = J.id := by
    rw [huseF]
    exact hw
  have hcas2 : J.has_cas = Fs.use_cas := by
    rw [huseF]
    exact hJhas
  have hexp2 : ¬(J.exptime ≠ 0 ∧ J.exptime ≤ Fs.now) := by
    rw [hJexp, hnowF]
    exact hexp
  have hfinal := annex_prepend_fast_facts Fs k w s.nextRef J htabF hFsQ hexp2 hJlinked
    hJklen hcas2 hJbuf hJmax hslab2 hJral
  refine ⟨hfinal.1, ?_, ?_⟩
  · show (item_annex k w false Fs).2.nextRef = s.nextRef + 1
    rw [hfinal.2.2.1]
    exact hnextF
  · show ∃ it2,
        heapGet (item_annex k w false Fs).2.heap s.nextRef = some it2 ∧
        it2.is_linked = true ∧
        item_val it2 = w ++ v ++ item_val oit
    obtain ⟨it2, hg2, hl2, hvl2, hval2, hral2, hc2⟩ := hfinal.2.2.2.2.2.2
    refine ⟨it2, hg2, hl2, ?_⟩
    rw [hval2, hJval, List.append_assoc]

/-- C6 witness: prepending "bb" to the linked left-aligned "aaaa" item
takes the slow path, allocating the right-aligned item for "bbaaaa" at
the fresh reference and republishing the key there. -/
theorem c6_annex_prepend_slow_then_fast_witness :
    (item_annex [107] [98, 98] false stateA).1 = ITEM_OK ∧
    (item_annex [107] [98, 98] false stateA).2.nextRef = stateA.nextRef + 1 ∧
    assoc_get [107] (item_annex [107] [98, 98] false stateA).2.table =
      some stateA.nextRef := by
  have h := c6_annex_prepend_slow_then_fast stateA [107] [98, 98] 0 itemA (by decide)
    (by decide) (by decide) (by decide) (by decide) (by decide) (by decide) (by decide)
    (by decide) (by decide) (by decide)
  exact ⟨h.1, h.2.1, h.2.2.1⟩

end Pelikan
